import Mathlib

/-!
# Meeting-intelligence pipeline: shallow embedding and verification

This file embeds the core of the `meeting-intelligence` repository in Lean 4:
the pipeline orchestrator (`src/backend/pipeline.py`), the Redis-backed
tiered vector store (`src/backend/vectorstore.py`), the per-speaker sentiment
grouping (`src/meeting_intelligence/sentiment.py`) and the data model
(`src/backend/models.py`), and proves or refutes the frozen claims about them.

Modelling conventions:
* Python strings are Lean `String`s; the Python string methods used by the
  source (`strip`, `split`, `in`, `startswith`, slicing) are re-implemented
  below over `String.data` with Python semantics.
* Python `Optional[str]` truthiness (`a or b`, `elif x:`) is modelled
  explicitly: `none` and `some ""` are both falsy.
* The external ML/LLM backends (presidio, the BERT classifier, the
  sentence-transformers embedder, the OpenAI extractor) are ports; they are
  parameters of the embedded functions, typed `... → Except PyErr ...` so a
  raising backend is representable.  `float` scores are modelled exactly over
  `ℚ` where only bookkeeping happens, and over `ℝ` for the cosine-similarity
  algebra.
* Redis is modelled as one value keyspace plus one set keyspace, keyed by the
  very same key strings the source builds (`"meeting:{ns}:{id}"` etc.);
  `json.dumps`/`json.loads` round-trips are modelled as the identity on the
  structured payload.  A redis-py pipeline with `transaction=True` (the
  default used by the source) executes atomically, so the `set`+`sadd` batch
  in `add_meeting` is modelled as two successive pure state updates with no
  failure point between them.
* Pydantic v2 model construction validates-and-copies list fields, so
  `ProcessedMeeting(audit_log=audit_log)` snapshots the list: a later
  `audit_log.append(...)` does not change the model's field.  (The repository
  documents this itself in `tests/unit/backend/test_pipeline.py`.)  In the
  pure embedding this is simply value semantics.
-/

namespace MeetingIntel

/-! ## Python string primitives -/

/-- Python `str.strip()`: remove leading and trailing whitespace. -/
def pyStrip (s : String) : String :=
  ⟨((s.data.dropWhile Char.isWhitespace).reverse.dropWhile Char.isWhitespace).reverse⟩

/-- Split a character list on a separator character (Python `str.split(sep)`
for a one-character separator: adjacent separators yield empty pieces). -/
def splitCh (c : Char) : List Char → List (List Char)
  | [] => [[]]
  | x :: xs =>
    let r := splitCh c xs
    if x = c then [] :: r
    else match r with
      | [] => [[x]]
      | p :: ps => (x :: p) :: ps

/-- Python `s.split("\n")`. -/
def pySplitLines (s : String) : List String :=
  (splitCh '\n' s.data).map String.mk

/-- Python `c in s` for a one-character needle. -/
def pyContains (s : String) (c : Char) : Bool :=
  s.data.contains c

/-- Python `s.startswith(p)`. -/
def pyStartsWith (s p : String) : Bool :=
  p.data.isPrefixOf s.data

/-- Python `s.split(c, 1)` when `c in s`: the part before the first
occurrence and the part after it.  When `c` is absent the second component
is `""` (the callers in the source only use it under a containment guard). -/
def pySplitOnce (c : Char) (s : String) : String × String :=
  let a := s.data.takeWhile (fun x => x ≠ c)
  let b := s.data.dropWhile (fun x => x ≠ c)
  (⟨a⟩, ⟨b.drop 1⟩)

/-- Python `s.split()` (no argument): split on whitespace runs, no empties. -/
def pyWhitespaceSplit (s : String) : List String :=
  ((splitCh ' ' (s.data.map (fun c => if c.isWhitespace then ' ' else c))).map
    String.mk).filter (fun p => p ≠ "")

/-- Python `sep.join(xs)`. -/
def pyJoin (sep : String) (xs : List String) : String :=
  String.intercalate sep xs

/-- Python slicing `s[:n]` (by code point). -/
def pyTake (n : Nat) (s : String) : String :=
  ⟨s.data.take n⟩

/-- Python truthiness of an `Optional[str]`: `None` and `""` are falsy. -/
def optStrTruthy : Option String → Bool
  | none => false
  | some s => s ≠ ""

/-- Python `a or b` for `a : Optional[str]`, `b : str`. -/
def strOrElse (a : Option String) (b : String) : String :=
  match a with
  | none => b
  | some s => if s = "" then b else s

/-- Insert into an `le`-ascending list, after existing `le`-equal elements. -/
def insertSorted {α : Type} (le : α → α → Bool) (x : α) : List α → List α
  | [] => [x]
  | y :: ys => if le y x then y :: insertSorted le x ys else x :: y :: ys

/-- Python's `list.sort`/`sorted` (Timsort): *the* stable sort for the total
preorder `le` — every stable sort computes this same list, so a structurally
recursive stable insertion sort is extensionally the source's sort. -/
def pySortBy {α : Type} (le : α → α → Bool) (l : List α) : List α :=
  l.foldl (fun acc x => insertSorted le x acc) []

/-! ## Data model (`src/backend/models.py`) -/

/-- A Python exception propagating out of a port or a parse. -/
structure PyErr where
  msg : String
  deriving DecidableEq, Repr

/-- Decidable equality of `Except` results, for evaluating the model at
concrete inputs. -/
instance {ε α : Type} [DecidableEq ε] [DecidableEq α] :
    DecidableEq (Except ε α) := fun x y =>
  match x, y with
  | .error a, .error b =>
    if h : a = b then .isTrue (congrArg Except.error h)
    else .isFalse (fun hh => h (Except.error.inj hh))
  | .ok a, .ok b =>
    if h : a = b then .isTrue (congrArg Except.ok h)
    else .isFalse (fun hh => h (Except.ok.inj hh))
  | .error _, .ok _ => .isFalse (fun hh => Except.noConfusion hh)
  | .ok _, .error _ => .isFalse (fun hh => Except.noConfusion hh)

/-- `TierClassification`: privacy tier. -/
inductive TierClassification where
  | ordinary
  | sensitive
  deriving DecidableEq, Repr

/-- `.value` of the `str`-valued enum. -/
def TierClassification.value : TierClassification → String
  | .ordinary => "ordinary"
  | .sensitive => "sensitive"

/-- `Speaker`. -/
structure Speaker where
  name : String
  email : Option String := none
  role : Option String := none
  deriving DecidableEq, Repr

/-- `DialogueTurn`. -/
structure DialogueTurn where
  timestamp : String
  speaker : String
  text : String
  deriving DecidableEq, Repr

/-- `Decision`. -/
structure Decision where
  topic : String
  decision : String
  deciders : List String
  confidence : ℚ
  deriving DecidableEq, Repr

/-- `ActionItem`. -/
structure ActionItem where
  task : String
  owner : String
  deadline : Option String := none
  priority : Option String := none
  deriving DecidableEq, Repr

/-- `Topic`. -/
structure Topic where
  name : String
  importance : String
  related_speakers : List String := []
  deriving DecidableEq, Repr

/-- `OpenQuestion`. -/
structure OpenQuestion where
  question : String
  context : String
  stakeholders : List String := []
  deriving DecidableEq, Repr

/-- `MeetingInsights`. -/
structure MeetingInsights where
  meeting_title : String
  meeting_date : Option String := none
  summary : String
  decisions : List Decision := []
  action_items : List ActionItem := []
  key_topics : List Topic := []
  open_questions : List OpenQuestion := []
  deriving DecidableEq, Repr

/-- `SentimentResult`. -/
structure SentimentResult where
  speaker : String
  overall_sentiment : String
  confidence : ℚ
  key_phrases : List String := []
  deriving DecidableEq, Repr

/-- `MeetingTranscript` (the `date : datetime` field is modelled as an
opaque string; nothing in the verified core inspects it). -/
structure MeetingTranscript where
  meeting_id : String
  title : String
  date : String
  tier : TierClassification := .ordinary
  participants : List Speaker := []
  turns : List DialogueTurn := []
  raw_text : Option String := none
  deriving DecidableEq, Repr

/-- One audit-log entry value: the entries mix strings and counts. -/
inductive AVal where
  | str (v : String)
  | nat (v : Nat)
  deriving DecidableEq, Repr

/-- An audit-log entry: a dict with a mandatory `step` and `timestamp`
plus step-specific fields. -/
structure AuditEntry where
  step : String
  info : List (String × AVal)
  timestamp : String
  deriving DecidableEq, Repr

/-- `ProcessedMeeting` (`processed_at : datetime` modelled as an opaque
string supplied by the caller, standing for `datetime.utcnow()`). -/
structure ProcessedMeeting where
  meeting_id : String
  tier : TierClassification
  insights : MeetingInsights
  sentiments : List SentimentResult := []
  vector_id : Option String := none
  processed_at : String
  audit_log : List AuditEntry := []
  deriving DecidableEq, Repr

/-! ## Sentiment analysis (`src/meeting_intelligence/sentiment.py`)

`SentimentAnalyzer` wraps an external BERT classifier; the classifier is the
port parameter `classifier : String → Except PyErr (String × ℚ)` returning
the `(label, score)` of `self.classifier(text)[0]` (or raising).  Everything
else — grouping, parsing, star-label mapping, key-phrase extraction — is
source logic and modelled concretely. -/

/-- Insertion-ordered dict-of-lists append:
`speaker_turns[k].append(v)` on a `defaultdict(list)`. -/
def dictUpsert (d : List (String × List String)) (k : String) (v : String) :
    List (String × List String) :=
  if d.any (fun p => p.1 = k) then
    d.map (fun p => if p.1 = k then (p.1, p.2 ++ [v]) else p)
  else
    d ++ [(k, [v])]

/-- `SentimentAnalyzer._parse_raw_transcript`: fold over stripped lines,
keeping `[timestamp] Speaker: Text` lines. -/
def parseRawLine (d : List (String × List String)) (line0 : String) :
    List (String × List String) :=
  let line := pyStrip line0
  if line = "" then d
  else if pyStartsWith line "---" then d
  else if pyContains line ']' && pyContains line ':' then
    let parts := pySplitOnce ']' line
    let rest := pyStrip parts.2
    if pyContains rest ':' then
      let st := pySplitOnce ':' rest
      dictUpsert d (pyStrip st.1) (pyStrip st.2)
    else d
  else d

/-- `SentimentAnalyzer._parse_raw_transcript`. -/
def parseRawTranscript (raw_text : String) : List (String × List String) :=
  (pySplitLines (pyStrip raw_text)).foldl parseRawLine []

/-- `SentimentAnalyzer._extract_key_phrases` loop body plus the
`len(phrases) >= 3: break` check. -/
def extractKeyPhrasesGo : List String → List String → List String
  | [], acc => acc
  | t :: ts, acc =>
    let ws := pyWhitespaceSplit t
    let acc' :=
      if ws.length > 3 then
        let ph := pyJoin " " (ws.take 8)
        if ph ∈ acc then acc else acc ++ [ph]
      else acc
    if acc'.length ≥ 3 then acc' else extractKeyPhrasesGo ts acc'

/-- `SentimentAnalyzer._extract_key_phrases`. -/
def extractKeyPhrases (texts : List String) : List String :=
  extractKeyPhrasesGo texts []

/-- Value of a nonempty all-digit character run. -/
def digitsToNat : List Char → Option Nat
  | [] => none
  | cs =>
    if cs.all Char.isDigit then
      some (cs.foldl (fun a c => a * 10 + (c.toNat - 48)) 0)
    else none

/-- Python `int(s)` on a stripped token: optional sign then digits
(underscore grouping and non-ASCII digits are out of scope here). -/
def pyInt (s : String) : Option Int :=
  match (pyStrip s).data with
  | '-' :: rest => (digitsToNat rest).map (fun n => -(n : Int))
  | '+' :: rest => (digitsToNat rest).map (fun n => (n : Int))
  | rest => (digitsToNat rest).map (fun n => (n : Int))

/-- `int(label.split()[0])`: `IndexError`/`ValueError` become `PyErr`. -/
def parseStarRating (label : String) : Except PyErr Int :=
  match pyWhitespaceSplit label with
  | [] => .error ⟨"IndexError: list index out of range"⟩
  | tok :: _ =>
    match pyInt tok with
    | none => .error ⟨"ValueError: invalid literal for int"⟩
    | some n => .ok n

/-- `SentimentAnalyzer._analyze_speaker`. -/
def analyzeSpeaker (classifier : String → Except PyErr (String × ℚ))
    (speaker : String) (texts : List String) : Except PyErr SentimentResult :=
  if texts = [] then
    .ok { speaker := speaker, overall_sentiment := "neutral", confidence := 0,
          key_phrases := [] }
  else
    let combined := pyJoin " " (texts.take 10)
    match classifier (pyTake 512 combined) with
    | .error e => .error e
    | .ok (label, score) =>
      match parseStarRating label with
      | .error e => .error e
      | .ok star =>
        let sentiment :=
          if star ≤ 2 then "negative"
          else if star = 3 then "neutral"
          else "positive"
        .ok { speaker := speaker, overall_sentiment := sentiment,
              confidence := score, key_phrases := extractKeyPhrases texts }

/-- A Python `for`-loop accumulating results, aborting on the first raise. -/
def exMapM (f : α → Except PyErr β) : List α → Except PyErr (List β)
  | [] => .ok []
  | x :: xs =>
    match f x with
    | .error e => .error e
    | .ok y =>
      match exMapM f xs with
      | .error e => .error e
      | .ok ys => .ok (y :: ys)

/-- The speaker → texts grouping built by `analyze_meeting`:
turns when present, else the raw-text parse when truthy, else empty. -/
def speakerTurnsOf (t : MeetingTranscript) : List (String × List String) :=
  if t.turns ≠ [] then
    t.turns.foldl (fun d turn => dictUpsert d turn.speaker turn.text) []
  else if optStrTruthy t.raw_text then
    parseRawTranscript (t.raw_text.getD "")
  else []

/-- `SentimentAnalyzer.analyze_meeting`. -/
def analyzeMeeting (classifier : String → Except PyErr (String × ℚ))
    (t : MeetingTranscript) : Except PyErr (List SentimentResult) :=
  exMapM (fun p => analyzeSpeaker classifier p.1 p.2) (speakerTurnsOf t)

/-- The distinct speaker names the source observes: the turns' speakers when
turns are present, else the keys parsed from a truthy `raw_text`, else
none. -/
def observedSpeakers (t : MeetingTranscript) : List String :=
  if t.turns ≠ [] then t.turns.map (fun turn => turn.speaker)
  else if optStrTruthy t.raw_text then
    (parseRawTranscript (t.raw_text.getD "")).map (fun p => p.1)
  else []

/-! ## Redaction port (`src/meeting_intelligence/redaction.py`)

`PIIRedactor.redact_transcript(text)` (the pipeline never passes
`preserve_speakers`, so the restore branch is dead on this call path) wraps
the external presidio analyzer/anonymizer.  The pipeline consumes it as a
port `String → Except PyErr RedactionResult`. -/

/-- One detected PII span, as in `RedactionResult.entities_found`. -/
structure EntityHit where
  etype : String
  start : Nat
  stop : Nat
  score : ℚ
  deriving DecidableEq, Repr

/-- `RedactionResult`. -/
structure RedactionResult where
  redacted_text : String
  entities_found : List EntityHit := []
  redaction_count : Nat
  deriving DecidableEq, Repr

/-! ## Redis model and the vector store (`src/backend/vectorstore.py`) -/

/-- Association-list get (first binding wins, as in a Redis keyspace where
keys are unique). -/
def alGet {α : Type} : List (String × α) → String → Option α
  | [], _ => none
  | (k', v) :: t, k => if k' = k then some v else alGet t k

/-- Association-list set: overwrite in place, or append a new binding. -/
def alSet {α : Type} : List (String × α) → String → α → List (String × α)
  | [], k, v => [(k, v)]
  | (k', v') :: t, k, v =>
    if k' = k then (k', v) :: t else (k', v') :: alSet t k v

/-- `metadata` dict stored with each meeting record. -/
structure StoreMetadata where
  meeting_id : String
  tier : String
  «namespace» : String
  processed_at : String
  title : String
  deriving DecidableEq, Repr

/-- The JSON payload stored under `meeting:{ns}:{id}`
(`json.dumps`/`json.loads` modelled as the identity). -/
structure StorePayload where
  document : String
  metadata : StoreMetadata
  vector_id : String
  processed_meeting : ProcessedMeeting
  deriving DecidableEq, Repr

/-- A Redis string value in this keyspace: a meeting payload or an
embedding vector (float components modelled over `ℚ`). -/
inductive RVal where
  | payload (p : StorePayload)
  | embv (e : List ℚ)
  deriving DecidableEq, Repr

/-- The shared Redis keyspace: string keys → values, set keys → members.
Set membership order models Redis's unordered sets as insertion order. -/
structure RedisState where
  kv : List (String × RVal)
  sets : List (String × List String)
  deriving DecidableEq, Repr

/-- The empty database. -/
def RedisState.empty : RedisState := ⟨[], []⟩

/-- `r.set(k, v)`. -/
def RedisState.set (st : RedisState) (k : String) (v : RVal) : RedisState :=
  { st with kv := alSet st.kv k v }

/-- `r.get(k)`. -/
def RedisState.get (st : RedisState) (k : String) : Option RVal :=
  alGet st.kv k

/-- `r.smembers(k)` (empty list for an absent set). -/
def RedisState.smembers (st : RedisState) (k : String) : List String :=
  (alGet st.sets k).getD []

/-- `r.sadd(k, m)`. -/
def RedisState.sadd (st : RedisState) (k : String) (m : String) : RedisState :=
  let cur := st.smembers k
  { st with sets := alSet st.sets k (if m ∈ cur then cur else cur ++ [m]) }

/-- `MeetingVectorStore` (the redis connection and the lazily-loaded model
are process-level resources; only `namespace` is state). -/
structure MeetingVectorStore where
  «namespace» : String
  deriving DecidableEq, Repr

/-- `MeetingVectorStore._data_key`. -/
def dataKey (s : MeetingVectorStore) (meeting_id : String) : String :=
  "meeting:" ++ s.«namespace» ++ ":" ++ meeting_id

/-- `MeetingVectorStore._emb_key`. -/
def embKey (s : MeetingVectorStore) (meeting_id : String) : String :=
  "emb:" ++ s.«namespace» ++ ":" ++ meeting_id

/-- `MeetingVectorStore._index_key`. -/
def indexKey (s : MeetingVectorStore) : String :=
  "idx:" ++ s.«namespace»

/-- `MeetingVectorStore._meeting_to_document`: the flattened-insights text. -/
def meetingToDocument (meeting : ProcessedMeeting) : String :=
  let insights := meeting.insights
  let sections :=
    ["Meeting: " ++ insights.meeting_title,
     "Summary: " ++ insights.summary,
     "\nDecisions:"]
    ++ insights.decisions.map (fun d => "- " ++ d.topic ++ ": " ++ d.decision)
    ++ ["\nAction Items:"]
    ++ insights.action_items.map (fun a =>
        let deadline := match a.deadline with
          | some dl => " (by " ++ dl ++ ")"
          | none => ""
        "- " ++ a.owner ++ ": " ++ a.task ++ deadline)
    ++ ["\nTopics:"]
    ++ insights.key_topics.map (fun t => "- " ++ t.name ++ " (" ++ t.importance ++ ")")
    ++ (if insights.open_questions ≠ [] then
          ["\nOpen Questions:"] ++ insights.open_questions.map (fun q => "- " ++ q.question)
        else [])
  pyJoin "\n" sections

/-- The `metadata` dict built inside `add_meeting`. -/
def mkMetadata (meeting : ProcessedMeeting) (ns : String) : StoreMetadata :=
  { meeting_id := meeting.meeting_id,
    tier := meeting.tier.value,
    «namespace» := ns,
    processed_at := meeting.processed_at,
    title := meeting.insights.meeting_title }

/-- The `payload` dict built inside `add_meeting`. -/
def mkPayload (meeting : ProcessedMeeting) (ns : String) : StorePayload :=
  { document := meetingToDocument meeting,
    metadata := mkMetadata meeting ns,
    vector_id := ns ++ "_" ++ meeting.meeting_id,
    processed_meeting := meeting }

/-- `MeetingVectorStore.add_meeting`.  The `set`+`sadd` batch runs as one
atomic transaction; the embedding is computed and written *after* it, so a
raising embedder (`embedModel` is `self._get_embedding`'s external model)
leaves the record and index membership behind.  Returns the `vector_id`
(or the propagated exception) together with the resulting keyspace. -/
def addMeeting (store : MeetingVectorStore)
    (embedModel : String → Except PyErr (List ℚ))
    (meeting : ProcessedMeeting) («namespace» : Option String)
    (st : RedisState) : Except PyErr String × RedisState :=
  let ns := strOrElse «namespace» store.«namespace»
  let vector_id := ns ++ "_" ++ meeting.meeting_id
  let payload := mkPayload meeting ns
  let st1 := (st.set (dataKey store meeting.meeting_id) (.payload payload)).sadd
      (indexKey store) meeting.meeting_id
  match embedModel (pyTake 8000 payload.document) with
  | .error e => (.error e, st1)
  | .ok embedding =>
    (.ok vector_id, st1.set (embKey store meeting.meeting_id) (.embv embedding))

/-- `MeetingVectorStore.get_meeting` (a stored non-payload value would make
`json.loads` yield a non-record; the key discipline keeps kinds separate). -/
def getMeeting (store : MeetingVectorStore) (meeting_id : String)
    (st : RedisState) : Option StorePayload :=
  match st.get (dataKey store meeting_id) with
  | some (.payload p) => some p
  | _ => none

/-- `MeetingVectorStore.list_meetings`: `sorted(meeting_ids)` then metadata
of each record that is present. -/
def listMeetings (store : MeetingVectorStore) (st : RedisState) :
    List StoreMetadata :=
  (pySortBy (fun a b => a ≤ b) (st.smembers (indexKey store))).filterMap
    (fun mid => (getMeeting store mid st).map (fun p => p.metadata))

/-- `SearchResult`. -/
structure SearchResult where
  meeting_id : String
  score : ℚ
  content : String
  metadata : StoreMetadata
  deriving DecidableEq, Repr

/-- `MeetingVectorStore.search`.  `sim` stands for the float-valued
`_cosine_similarity` (its algebra is verified separately over `ℝ`); the
scores it produces are the sort keys.  Note the source addresses keys with
the *argument* namespace here (`f"idx:{ns}"` …), not through the key
helpers.  `results.sort(key=..., reverse=True)` is a stable descending
sort. -/
def searchStore (store : MeetingVectorStore)
    (embedModel : String → Except PyErr (List ℚ))
    (sim : List ℚ → List ℚ → ℚ)
    (query : String) («namespace» : Option String) (n_results : Nat)
    (st : RedisState) : Except PyErr (List SearchResult) :=
  let ns := strOrElse «namespace» store.«namespace»
  let meeting_ids := st.smembers ("idx:" ++ ns)
  if meeting_ids = [] then .ok []
  else
    match embedModel (pyTake 8000 query) with
    | .error e => .error e
    | .ok query_embedding =>
      let results := meeting_ids.filterMap (fun mid =>
        match st.get ("emb:" ++ ns ++ ":" ++ mid),
              st.get ("meeting:" ++ ns ++ ":" ++ mid) with
        | some (.embv e), some (.payload p) =>
          some { meeting_id := p.metadata.meeting_id,
                 score := sim query_embedding e,
                 content := p.document,
                 metadata := p.metadata }
        | _, _ => none)
      .ok ((pySortBy (fun a b => b.score ≤ a.score) results).take n_results)

/-- `create_tiered_stores`: the `"ordinary"` store. -/
def ordinaryStore : MeetingVectorStore := ⟨"ordinary"⟩

/-- `create_tiered_stores`: the `"sensitive"` store. -/
def sensitiveStore : MeetingVectorStore := ⟨"sensitive"⟩

/-- `self.stores[tier.value]`. -/
def tierStore : TierClassification → MeetingVectorStore
  | .ordinary => ordinaryStore
  | .sensitive => sensitiveStore

/-! ## Pipeline orchestrator (`src/backend/pipeline.py`) -/

/-- The external collaborators a `MeetingPipeline` instance holds:
`PIIRedactor.redact_transcript`, `MeetingExtractor.extract` (plus its
`model` identifier used in the audit entry), the BERT classifier inside
`SentimentAnalyzer`, and the sentence-transformers embedder inside the
vector stores. -/
structure PipelinePorts where
  redactTranscript : String → Except PyErr RedactionResult
  extract : MeetingTranscript → Except PyErr MeetingInsights
  extractorModel : String
  classifier : String → Except PyErr (String × ℚ)
  embedModel : String → Except PyErr (List ℚ)

/-- Which port was invoked with which argument, for the call-count claims. -/
structure PipelineTrace where
  redactCalls : List String
  extractCalls : List MeetingTranscript
  sentimentCalls : List MeetingTranscript
  deriving DecidableEq, Repr

/-- Everything observable about one `process()` call: the returned record or
the propagated exception, the Redis keyspace afterwards, the port-call
trace, and the final value of the method-local `audit_log` list. -/
structure ProcessOutcome where
  result : Except PyErr ProcessedMeeting
  state : RedisState
  trace : PipelineTrace
  localAuditLog : List AuditEntry
  deriving Repr

/-- `MeetingPipeline._turns_to_text`. -/
def turnsToText (turns : List DialogueTurn) : String :=
  if turns = [] then ""
  else pyJoin "\n" (turns.map (fun t =>
    "[" ++ t.timestamp ++ "] " ++ t.speaker ++ ": " ++ t.text))

/-- `MeetingPipeline._create_redacted_transcript`: note `turns` is *not*
carried over (pydantic default `[]`), only `raw_text` is replaced. -/
def createRedactedTranscript (original : MeetingTranscript)
    (redacted_text : String) : MeetingTranscript :=
  { meeting_id := original.meeting_id,
    title := original.title,
    date := original.date,
    tier := original.tier,
    participants := original.participants,
    turns := [],
    raw_text := some redacted_text }

/-- The plain text handed to the redactor in step 2:
`transcript.raw_text or self._turns_to_text(transcript.turns)`. -/
def origRawText (t : MeetingTranscript) : String :=
  strOrElse t.raw_text (turnsToText t.turns)

/-- Steps 3–6 of `MeetingPipeline.process`, with the (possibly redacted)
`transcript`, the audit log and the redaction-call trace accumulated by
steps 1–2. -/
def processFrom (ports : PipelinePorts) (now : String)
    (tier : TierClassification) (transcript : MeetingTranscript)
    (auditLog : List AuditEntry) (redactCalls : List String)
    (st : RedisState) : ProcessOutcome :=
  -- Step 3: extract insights
  match ports.extract transcript with
  | .error e =>
    ⟨.error e, st, ⟨redactCalls, [transcript], []⟩, auditLog⟩
  | .ok insights =>
    let auditLog := auditLog ++
      [⟨"extraction", [("model", .str ports.extractorModel)], now⟩]
    -- Step 4: sentiment analysis
    match analyzeMeeting ports.classifier transcript with
    | .error e =>
      ⟨.error e, st, ⟨redactCalls, [transcript], [transcript]⟩, auditLog⟩
    | .ok sentiments =>
      let auditLog := auditLog ++
        [⟨"sentiment", [("speakers_analyzed", .nat sentiments.length)], now⟩]
      -- Step 5: create processed meeting (pydantic copies `audit_log`)
      let processed : ProcessedMeeting :=
        { meeting_id := transcript.meeting_id,
          tier := tier,
          insights := insights,
          sentiments := sentiments,
          vector_id := none,
          processed_at := now,
          audit_log := auditLog }
      -- Step 6: store in the tier's vector store
      let ns := tier.value
      let stored := addMeeting (tierStore tier) ports.embedModel processed
        (some ns) st
      match stored.1 with
      | .error e =>
        ⟨.error e, stored.2, ⟨redactCalls, [transcript], [transcript]⟩, auditLog⟩
      | .ok vector_id =>
        let processed := { processed with vector_id := some vector_id }
        let auditLog := auditLog ++
          [⟨"storage", [("vector_id", .str vector_id), ("namespace", .str ns)], now⟩]
        ⟨.ok processed, stored.2, ⟨redactCalls, [transcript], [transcript]⟩, auditLog⟩

/-- `MeetingPipeline.process` for a pipeline constructed with
`enable_redaction = enableRedaction`.  `now` stands for the
`datetime.utcnow().isoformat()` timestamps (their value is never branched
on). -/
def process (ports : PipelinePorts) (enableRedaction : Bool) (now : String)
    (transcript : MeetingTranscript) (st : RedisState) : ProcessOutcome :=
  -- Step 1: tier classification (audit only)
  let tier := transcript.tier
  let auditLog : List AuditEntry :=
    [⟨"classification", [("tier", .str tier.value)], now⟩]
  -- Step 2: redaction for sensitive tier
  if tier = .sensitive ∧ enableRedaction then
    let raw_text := origRawText transcript
    match ports.redactTranscript raw_text with
    | .error e => ⟨.error e, st, ⟨[raw_text], [], []⟩, auditLog⟩
    | .ok rr =>
      let auditLog := auditLog ++
        [⟨"redaction", [("entities_redacted", .nat rr.redaction_count)], now⟩]
      processFrom ports now tier
        (createRedactedTranscript transcript rr.redacted_text)
        auditLog [raw_text] st
  else
    processFrom ports now tier transcript auditLog [] st

/-- The meeting record assembled at step 5 of `process` (before storage
assigns `vector_id`), as a named abbreviation for stating theorems. -/
def assembled (now : String) (tier : TierClassification)
    (tr : MeetingTranscript) (log : List AuditEntry)
    (ports : PipelinePorts) (insights : MeetingInsights)
    (sentiments : List SentimentResult) : ProcessedMeeting :=
  { meeting_id := tr.meeting_id, tier := tier, insights := insights,
    sentiments := sentiments, vector_id := none, processed_at := now,
    audit_log := log ++ [⟨"extraction", [("model", .str ports.extractorModel)], now⟩]
      ++ [⟨"sentiment", [("speakers_analyzed", .nat sentiments.length)], now⟩] }

/-- One trimmed row of `MeetingPipeline.search_meetings` output. -/
structure PipelineSearchRow where
  meeting_id : String
  score : ℚ
  title : String
  tier : String
  content_preview : String
  deriving DecidableEq, Repr

/-- The per-result trimming in `search_meetings` (the stored metadata
always carries `title` and `tier`, so the `.get` defaults never fire). -/
def toSearchRow (r : SearchResult) : PipelineSearchRow :=
  { meeting_id := r.meeting_id,
    score := r.score,
    title := r.metadata.title,
    tier := r.metadata.tier,
    content_preview := pyTake 200 r.content ++ "..." }

/-- `MeetingPipeline.search_meetings`: with a tier, that tier's store and
namespace; without one, only the `"ordinary"` store and namespace. -/
def searchMeetings (ports : PipelinePorts) (sim : List ℚ → List ℚ → ℚ)
    (query : String) (tier : Option TierClassification) (n_results : Nat)
    (st : RedisState) : Except PyErr (List PipelineSearchRow) :=
  let raw :=
    match tier with
    | some t =>
      searchStore (tierStore t) ports.embedModel sim query (some t.value)
        n_results st
    | none =>
      searchStore ordinaryStore ports.embedModel sim query (some "ordinary")
        n_results st
  match raw with
  | .error e => .error e
  | .ok results => .ok (results.map toSearchRow)

/-! ## Cosine similarity over `ℝ` (`MeetingVectorStore._cosine_similarity`)

The source computes `float(np.dot(va, vb) / (norm(va) * norm(vb)))` in
`float32`, returning `0.0` when the denominator is zero.  The algebra is
modelled exactly over `ℝ`; the spec's `≈ 1.0` becomes an exact `= 1`. -/

/-- `np.dot` on equal-length vectors. -/
def dotR (a b : List ℝ) : ℝ :=
  (List.zipWith (fun x y => x * y) a b).sum

/-- `np.linalg.norm`. -/
noncomputable def normR (a : List ℝ) : ℝ :=
  Real.sqrt (dotR a a)

/-- `MeetingVectorStore._cosine_similarity`. -/
noncomputable def cosineSimilarity (a b : List ℝ) : ℝ :=
  if normR a * normR b = 0 then 0 else dotR a b / (normR a * normR b)

/-! ## Concrete fixtures

Deterministic stand-ins for the external backends plus small transcripts,
used to evaluate the model at concrete inputs. -/

/-- A small insights record, as a deterministic extractor output. -/
def fxInsights : MeetingInsights :=
  { meeting_title := "Sprint Review",
    summary := "Reviewed the sprint.",
    decisions := [{ topic := "deploy", decision := "ship Friday",
                    deciders := ["Alice"], confidence := 1 }],
    action_items := [{ task := "release notes", owner := "Bob" }] }

/-- Deterministic ports: a redactor that replaces the one person name with
`<PERSON>`, a fixed extractor, an always-5-stars classifier, and a constant
embedder. -/
def fxPorts : PipelinePorts :=
  { redactTranscript := fun _ =>
      .ok { redacted_text := "[00:00] <PERSON>: hello world today ok",
            redaction_count := 1 },
    extract := fun _ => .ok fxInsights,
    extractorModel := "gpt-4o-mini",
    classifier := fun _ => .ok ("5 stars", 1),
    embedModel := fun _ => .ok [1, 0] }

/-- The same ports with an embedding backend that raises. -/
def fxFailEmbedPorts : PipelinePorts :=
  { fxPorts with embedModel := fun _ => .error ⟨"embedding model unavailable"⟩ }

/-- A sensitive-tier transcript whose raw text names one speaker. -/
def fxSensTranscript : MeetingTranscript :=
  { meeting_id := "m1", title := "1:1", date := "2025-02-18",
    tier := .sensitive,
    raw_text := some "[00:00] Alice: hello world today ok" }

/-- An ordinary-tier transcript with three turns by two speakers. -/
def fxOrdTranscript : MeetingTranscript :=
  { meeting_id := "m1", title := "Standup", date := "2025-02-18",
    tier := .ordinary,
    turns := [⟨"00:00", "Alice", "hi"⟩, ⟨"00:01", "Bob", "yo"⟩,
              ⟨"00:02", "Alice", "ok"⟩] }

/-- The record `process fxPorts true "now" fxOrdTranscript RedisState.empty`
returns (computed by evaluation; equality is checked in the witnesses). -/
def fxOrdPM : ProcessedMeeting :=
  { meeting_id := "m1", tier := .ordinary, insights := fxInsights,
    sentiments := [{ speaker := "Alice", overall_sentiment := "positive",
                     confidence := 1, key_phrases := [] },
                   { speaker := "Bob", overall_sentiment := "positive",
                     confidence := 1, key_phrases := [] }],
    vector_id := some "ordinary_m1", processed_at := "now",
    audit_log := [⟨"classification", [("tier", .str "ordinary")], "now"⟩,
                  ⟨"extraction", [("model", .str "gpt-4o-mini")], "now"⟩,
                  ⟨"sentiment", [("speakers_analyzed", .nat 2)], "now"⟩] }

/-- The record `process fxPorts true "now" fxSensTranscript RedisState.empty`
returns (computed by evaluation; equality is checked in the witnesses). -/
def fxSensPM : ProcessedMeeting :=
  { meeting_id := "m1", tier := .sensitive, insights := fxInsights,
    sentiments := [{ speaker := "<PERSON>", overall_sentiment := "positive",
                     confidence := 1, key_phrases := ["hello world today ok"] }],
    vector_id := some "sensitive_m1", processed_at := "now",
    audit_log := [⟨"classification", [("tier", .str "sensitive")], "now"⟩,
                  ⟨"redaction", [("entities_redacted", .nat 1)], "now"⟩,
                  ⟨"extraction", [("model", .str "gpt-4o-mini")], "now"⟩,
                  ⟨"sentiment", [("speakers_analyzed", .nat 1)], "now"⟩] }

/-- A transcript with neither turns nor raw text. -/
def fxEmptyTranscript : MeetingTranscript :=
  { meeting_id := "e", title := "Empty", date := "2025-02-18" }

/-- A stored ordinary meeting `a`. -/
def fxRecA : ProcessedMeeting :=
  { meeting_id := "a", tier := .ordinary, insights := fxInsights,
    processed_at := "p" }

/-- A stored ordinary meeting `b`. -/
def fxRecB : ProcessedMeeting :=
  { meeting_id := "b", tier := .ordinary, insights := fxInsights,
    processed_at := "p" }

/-- A stored sensitive meeting `s`. -/
def fxRecS : ProcessedMeeting :=
  { meeting_id := "s", tier := .sensitive, insights := fxInsights,
    processed_at := "p" }

/-- A one-meeting ordinary namespace: record, embedding and index entry for
meeting `a`. -/
def fxStA : RedisState :=
  ((RedisState.empty.set "meeting:ordinary:a"
      (.payload (mkPayload fxRecA "ordinary"))).set "emb:ordinary:a"
      (.embv [1, 0])).sadd "idx:ordinary" "a"

/-- `fxStA` plus a second ordinary meeting `b` with an orthogonal embedding. -/
def fxStAB : RedisState :=
  ((fxStA.set "meeting:ordinary:b"
      (.payload (mkPayload fxRecB "ordinary"))).set "emb:ordinary:b"
      (.embv [0, 1])).sadd "idx:ordinary" "b"

/-- `fxStAB` plus an unrelated record in the sensitive namespace (keys kept
in `prefix ++ id` form for the frame proofs). -/
def fxStABS : RedisState :=
  ((fxStAB.set ("meeting:sensitive:" ++ "s")
      (.payload (mkPayload fxRecS "sensitive"))).set ("emb:sensitive:" ++ "s")
      (.embv [1, 1])).sadd ("idx:" ++ "sensitive") "s"

/-- The rows `search` returns on `fxStAB` for a query embedded at `[1, 0]`,
scored by the exact dot product. -/
def fxRows : List SearchResult :=
  [{ meeting_id := "a", score := 1, content := meetingToDocument fxRecA,
     metadata := mkMetadata fxRecA "ordinary" },
   { meeting_id := "b", score := 0, content := meetingToDocument fxRecB,
     metadata := mkMetadata fxRecB "ordinary" }]

/-- A concrete similarity for witnesses: the stored embedding's first
component (the similarity port is a parameter of the model, standing for the
float-valued `_cosine_similarity`, whose algebra is verified over `ℝ`). -/
def fxSim (_qe e : List ℚ) : ℚ :=
  e.headD 0

/-! ## Keyspace frame lemmas -/

theorem alGet_alSet_self {α : Type} (l : List (String × α)) (k : String) (v : α) :
    alGet (alSet l k v) k = some v := by
  induction l with
  | nil => simp [alSet, alGet]
  | cons hd t ih =>
    obtain ⟨k₀, v₀⟩ := hd
    by_cases hk : k₀ = k
    · simp [alSet, alGet, hk]
    · simp [alSet, alGet, hk, ih]

theorem alGet_alSet_ne {α : Type} (l : List (String × α)) {k k' : String} (v : α)
    (h : k' ≠ k) : alGet (alSet l k v) k' = alGet l k' := by
  induction l with
  | nil => simp [alSet, alGet, Ne.symm h]
  | cons hd t ih =>
    obtain ⟨k₀, v₀⟩ := hd
    by_cases hk : k₀ = k
    · subst hk
      simp [alSet, alGet, Ne.symm h]
    · by_cases hk' : k₀ = k'
      · simp [alSet, alGet, hk, hk', h]
      · simp [alSet, alGet, hk, hk', ih]

theorem get_set_self (st : RedisState) (k : String) (v : RVal) :
    (st.set k v).get k = some v :=
  alGet_alSet_self st.kv k v

theorem get_set_ne (st : RedisState) {k k' : String} (v : RVal) (h : k' ≠ k) :
    (st.set k v).get k' = st.get k' :=
  alGet_alSet_ne st.kv v h

theorem get_sadd (st : RedisState) (k m k' : String) :
    (st.sadd k m).get k' = st.get k' := rfl

theorem smembers_set (st : RedisState) (k : String) (v : RVal) (k' : String) :
    (st.set k v).smembers k' = st.smembers k' := rfl

theorem smembers_sadd_ne (st : RedisState) {k k' : String} (m : String)
    (h : k' ≠ k) : (st.sadd k m).smembers k' = st.smembers k' := by
  unfold RedisState.sadd RedisState.smembers
  simp only
  rw [alGet_alSet_ne _ _ h]

theorem mem_smembers_sadd_self (st : RedisState) (k m : String) :
    m ∈ (st.sadd k m).smembers k := by
  show m ∈ (alGet (alSet st.sets k _) k).getD []
  rw [alGet_alSet_self]
  by_cases h : m ∈ st.smembers k
  · simp only [if_pos h]
    exact h
  · simp [h]

/-! ## Key-string disequalities

Redis keys are flat strings; the namespace partition holds because the key
strings built for distinct namespaces are distinct strings. -/

theorem str_ne_of_append_take_ne (p q a b : String) (n : Nat)
    (hp : n ≤ p.data.length) (hq : n ≤ q.data.length)
    (hne : p.data.take n ≠ q.data.take n) : p ++ a ≠ q ++ b := by
  intro h
  apply hne
  have hd := congrArg String.data h
  rw [String.data_append, String.data_append] at hd
  have ht := congrArg (List.take n) hd
  rwa [List.take_append_of_le_length hp, List.take_append_of_le_length hq] at ht

theorem str_append_left_cancel {p a b : String} (h : p ++ a = p ++ b) : a = b := by
  have hd := congrArg String.data h
  rw [String.data_append, String.data_append] at hd
  exact String.ext (List.append_cancel_left hd)

theorem str_append_right_cancel {a b p : String} (h : a ++ p = b ++ p) : a = b := by
  have hd := congrArg String.data h
  rw [String.data_append, String.data_append] at hd
  exact String.ext (List.append_cancel_right hd)

/-- Re-bracket a key `((p ++ x) ++ ":") ++ y` to expose its literal kind
prefix `p`. -/
theorem key_reassoc (p x y : String) :
    p ++ x ++ ":" ++ y = p ++ (x ++ (":" ++ y)) := by
  rw [String.append_assoc, String.append_assoc]

/-- Data keys of the two tiered stores never collide, for any pair of ids. -/
theorem dataKey_ord_ne_sens (a b : String) :
    dataKey ordinaryStore a ≠ dataKey sensitiveStore b := by
  intro h
  unfold dataKey ordinaryStore sensitiveStore at h
  simp only [key_reassoc] at h
  have h2 := str_append_left_cancel h
  exact str_ne_of_append_take_ne "ordinary" "sensitive" _ _ 1
    (by decide) (by decide) (by decide) h2

/-- Embedding keys of the two tiered stores never collide. -/
theorem embKey_ord_ne_sens (a b : String) :
    embKey ordinaryStore a ≠ embKey sensitiveStore b := by
  intro h
  unfold embKey ordinaryStore sensitiveStore at h
  simp only [key_reassoc] at h
  have h2 := str_append_left_cancel h
  exact str_ne_of_append_take_ne "ordinary" "sensitive" _ _ 1
    (by decide) (by decide) (by decide) h2

/-- An `emb:…` key is never a `meeting:…` key. -/
theorem embKey_ne_dataKey (s s' : MeetingVectorStore) (a b : String) :
    embKey s a ≠ dataKey s' b := by
  unfold embKey dataKey
  rw [key_reassoc, key_reassoc]
  exact str_ne_of_append_take_ne "emb:" "meeting:" _ _ 1
    (by decide) (by decide) (by decide)

/-- Equal data keys for the same id force equal namespaces. -/
theorem dataKey_inj_ns {n ns id : String}
    (h : dataKey ⟨n⟩ id = dataKey ⟨ns⟩ id) : n = ns := by
  unfold dataKey at h
  have h2 := str_append_right_cancel (str_append_right_cancel h)
  exact str_append_left_cancel h2

/-- Merge a closed `p ++ x ++ ":"` key prefix into one literal. -/
theorem key_lit_merge (p x y w : String) (h : p ++ x ++ ":" = w) :
    p ++ x ++ ":" ++ y = w ++ y := by
  rw [← h]

theorem emb_ord_key (mid : String) :
    "emb:" ++ "ordinary" ++ ":" ++ mid = "emb:ordinary:" ++ mid :=
  key_lit_merge _ _ _ _ (by decide)

theorem meet_ord_key (mid : String) :
    "meeting:" ++ "ordinary" ++ ":" ++ mid = "meeting:ordinary:" ++ mid :=
  key_lit_merge _ _ _ _ (by decide)

theorem idx_ord_key : "idx:" ++ "ordinary" = "idx:ordinary" := by decide

theorem strOrElse_ordinary (s : String) :
    strOrElse (some "ordinary") s = "ordinary" := rfl

/-! ## Cosine-similarity algebra -/

theorem dotR_self_eq (v : List ℝ) : dotR v v = (v.map (fun x => x * x)).sum := by
  unfold dotR
  rw [List.zipWith_same]

theorem sum_sq_nonneg (v : List ℝ) : 0 ≤ (v.map (fun x => x * x)).sum := by
  refine List.sum_nonneg ?_
  intro x hx
  obtain ⟨y, _, rfl⟩ := List.mem_map.mp hx
  exact mul_self_nonneg y

theorem dotR_self_nonneg (v : List ℝ) : 0 ≤ dotR v v := by
  rw [dotR_self_eq]
  exact sum_sq_nonneg v

theorem sum_sq_pos (x : ℝ) (hx0 : x ≠ 0) :
    ∀ v : List ℝ, x ∈ v → 0 < (v.map (fun y => y * y)).sum := by
  intro v
  induction v with
  | nil => intro hx; cases hx
  | cons a t ih =>
    intro hx
    simp only [List.map_cons, List.sum_cons]
    rcases List.mem_cons.mp hx with rfl | hxt
    · exact add_pos_of_pos_of_nonneg (mul_self_pos.mpr hx0) (sum_sq_nonneg t)
    · exact add_pos_of_nonneg_of_pos (mul_self_nonneg a) (ih hxt)

theorem dotR_self_pos (v : List ℝ) (h : ∃ x ∈ v, x ≠ 0) : 0 < dotR v v := by
  rw [dotR_self_eq]
  obtain ⟨x, hx, hx0⟩ := h
  exact sum_sq_pos x hx0 v hx

theorem dotR_comm (a b : List ℝ) : dotR a b = dotR b a := by
  unfold dotR
  rw [List.zipWith_comm]
  have hfun : (fun (y x : ℝ) => x * y) = (fun (x y : ℝ) => x * y) := by
    funext y x
    exact mul_comm x y
  rw [hfun]

/-! ## Pipeline equation lemmas

One equation per port outcome; together they characterise `addMeeting`,
`processFrom` and `process`. -/

theorem addMeeting_embed_error (store : MeetingVectorStore)
    (embedM : String → Except PyErr (List ℚ)) (m : ProcessedMeeting)
    (ns : Option String) (st : RedisState) (e : PyErr)
    (h : embedM (pyTake 8000 (mkPayload m (strOrElse ns store.«namespace»)).document) = .error e) :
    addMeeting store embedM m ns st =
      (.error e,
       (st.set (dataKey store m.meeting_id)
         (.payload (mkPayload m (strOrElse ns store.«namespace»)))).sadd
         (indexKey store) m.meeting_id) := by
  unfold addMeeting
  dsimp only
  rw [h]

theorem addMeeting_embed_ok (store : MeetingVectorStore)
    (embedM : String → Except PyErr (List ℚ)) (m : ProcessedMeeting)
    (ns : Option String) (st : RedisState) (emb : List ℚ)
    (h : embedM (pyTake 8000 (mkPayload m (strOrElse ns store.«namespace»)).document) = .ok emb) :
    addMeeting store embedM m ns st =
      (.ok (strOrElse ns store.«namespace» ++ "_" ++ m.meeting_id),
       ((st.set (dataKey store m.meeting_id)
         (.payload (mkPayload m (strOrElse ns store.«namespace»)))).sadd
         (indexKey store) m.meeting_id).set (embKey store m.meeting_id)
         (.embv emb)) := by
  unfold addMeeting
  dsimp only
  rw [h]

theorem processFrom_redactCalls (ports : PipelinePorts) (now : String)
    (tier : TierClassification) (tr : MeetingTranscript)
    (log : List AuditEntry) (rc : List String) (st : RedisState) :
    (processFrom ports now tier tr log rc st).trace.redactCalls = rc := by
  unfold processFrom
  split
  · rfl
  · split
    · rfl
    · dsimp only
      split
      · rfl
      · rfl

theorem processFrom_extractCalls (ports : PipelinePorts) (now : String)
    (tier : TierClassification) (tr : MeetingTranscript)
    (log : List AuditEntry) (rc : List String) (st : RedisState) :
    (processFrom ports now tier tr log rc st).trace.extractCalls = [tr] := by
  unfold processFrom
  split
  · rfl
  · split
    · rfl
    · dsimp only
      split
      · rfl
      · rfl

theorem processFrom_extract_error (ports : PipelinePorts) (now : String)
    (tier : TierClassification) (tr : MeetingTranscript)
    (log : List AuditEntry) (rc : List String) (st : RedisState) (e : PyErr)
    (hext : ports.extract tr = .error e) :
    processFrom ports now tier tr log rc st = ⟨.error e, st, ⟨rc, [tr], []⟩, log⟩ := by
  unfold processFrom
  rw [hext]

theorem processFrom_sentiment_error (ports : PipelinePorts) (now : String)
    (tier : TierClassification) (tr : MeetingTranscript)
    (log : List AuditEntry) (rc : List String) (st : RedisState)
    (insights : MeetingInsights) (e : PyErr)
    (hext : ports.extract tr = .ok insights)
    (hsent : analyzeMeeting ports.classifier tr = .error e) :
    processFrom ports now tier tr log rc st =
      ⟨.error e, st, ⟨rc, [tr], [tr]⟩,
       log ++ [⟨"extraction", [("model", .str ports.extractorModel)], now⟩]⟩ := by
  unfold processFrom
  rw [hext, hsent]

theorem processFrom_sentiment_ok (ports : PipelinePorts) (now : String)
    (tier : TierClassification) (tr : MeetingTranscript)
    (log : List AuditEntry) (rc : List String) (st : RedisState)
    (insights : MeetingInsights) (sentiments : List SentimentResult)
    (hext : ports.extract tr = .ok insights)
    (hsent : analyzeMeeting ports.classifier tr = .ok sentiments) :
    processFrom ports now tier tr log rc st =
      (let auditLog := log ++ [⟨"extraction", [("model", .str ports.extractorModel)], now⟩]
        ++ [⟨"sentiment", [("speakers_analyzed", .nat sentiments.length)], now⟩]
       let processed : ProcessedMeeting :=
        { meeting_id := tr.meeting_id, tier := tier, insights := insights,
          sentiments := sentiments, vector_id := none, processed_at := now,
          audit_log := auditLog }
       let stored := addMeeting (tierStore tier) ports.embedModel processed
        (some tier.value) st
       match stored.1 with
       | .error e => ⟨.error e, stored.2, ⟨rc, [tr], [tr]⟩, auditLog⟩
       | .ok vector_id =>
         ⟨.ok { processed with vector_id := some vector_id }, stored.2,
          ⟨rc, [tr], [tr]⟩,
          auditLog ++ [⟨"storage", [("vector_id", .str vector_id),
            ("namespace", .str tier.value)], now⟩]⟩) := by
  unfold processFrom
  rw [hext, hsent]

theorem processFrom_cases (ports : PipelinePorts) (now : String)
    (tier : TierClassification) (tr : MeetingTranscript)
    (log : List AuditEntry) (rc : List String) (st : RedisState) :
    (∃ e, ports.extract tr = .error e ∧
      processFrom ports now tier tr log rc st = ⟨.error e, st, ⟨rc, [tr], []⟩, log⟩)
    ∨ (∃ insights e, ports.extract tr = .ok insights ∧
        analyzeMeeting ports.classifier tr = .error e ∧
        processFrom ports now tier tr log rc st =
          ⟨.error e, st, ⟨rc, [tr], [tr]⟩,
           log ++ [⟨"extraction", [("model", .str ports.extractorModel)], now⟩]⟩)
    ∨ (∃ insights sentiments e, ports.extract tr = .ok insights ∧
        analyzeMeeting ports.classifier tr = .ok sentiments ∧
        (addMeeting (tierStore tier) ports.embedModel
          (assembled now tier tr log ports insights sentiments)
          (some tier.value) st).1 = .error e ∧
        processFrom ports now tier tr log rc st =
          ⟨.error e,
           (addMeeting (tierStore tier) ports.embedModel
             (assembled now tier tr log ports insights sentiments)
             (some tier.value) st).2,
           ⟨rc, [tr], [tr]⟩,
           (assembled now tier tr log ports insights sentiments).audit_log⟩)
    ∨ (∃ insights sentiments vid, ports.extract tr = .ok insights ∧
        analyzeMeeting ports.classifier tr = .ok sentiments ∧
        (addMeeting (tierStore tier) ports.embedModel
          (assembled now tier tr log ports insights sentiments)
          (some tier.value) st).1 = .ok vid ∧
        processFrom ports now tier tr log rc st =
          ⟨.ok { assembled now tier tr log ports insights sentiments with
                   vector_id := some vid },
           (addMeeting (tierStore tier) ports.embedModel
             (assembled now tier tr log ports insights sentiments)
             (some tier.value) st).2,
           ⟨rc, [tr], [tr]⟩,
           (assembled now tier tr log ports insights sentiments).audit_log
             ++ [⟨"storage", [("vector_id", .str vid),
                  ("namespace", .str tier.value)], now⟩]⟩) := by
  cases hext : ports.extract tr with
  | error e =>
    exact Or.inl ⟨e, rfl, processFrom_extract_error ports now tier tr log rc st e hext⟩
  | ok insights =>
    cases hsent : analyzeMeeting ports.classifier tr with
    | error e =>
      exact Or.inr (Or.inl ⟨insights, e, rfl, rfl,
        processFrom_sentiment_error ports now tier tr log rc st insights e hext hsent⟩)
    | ok sentiments =>
      rw [processFrom_sentiment_ok ports now tier tr log rc st insights sentiments hext hsent]
      dsimp only
      split
      · next e haddm =>
        exact Or.inr (Or.inr (Or.inl ⟨insights, sentiments, e, rfl, rfl, haddm, rfl⟩))
      · next vid haddm =>
        exact Or.inr (Or.inr (Or.inr ⟨insights, sentiments, vid, rfl, rfl, haddm, rfl⟩))

/-- `namespace or self.namespace` with a tier value as the argument always
yields the tier value (tier values are nonempty strings). -/
theorem strOrElse_tier (tc : TierClassification) (s : String) :
    strOrElse (some tc.value) s = tc.value := by
  cases tc <;> rfl

theorem processFrom_state_cases (ports : PipelinePorts) (now : String)
    (tier : TierClassification) (tr : MeetingTranscript)
    (log : List AuditEntry) (rc : List String) (st : RedisState) :
    (∀ e, (processFrom ports now tier tr log rc st).result = .error e →
      (processFrom ports now tier tr log rc st).state = st
      ∨ ∃ pm : ProcessedMeeting,
          pm.meeting_id = tr.meeting_id ∧
          ports.embedModel (pyTake 8000 (mkPayload pm tier.value).document)
            = .error e ∧
          (processFrom ports now tier tr log rc st).state =
            (st.set (dataKey (tierStore tier) tr.meeting_id)
              (.payload (mkPayload pm tier.value))).sadd
              (indexKey (tierStore tier)) tr.meeting_id)
    ∧ (∀ pm, (processFrom ports now tier tr log rc st).result = .ok pm →
        (getMeeting (tierStore tier) tr.meeting_id
          (processFrom ports now tier tr log rc st).state).isSome = true) := by
  rcases processFrom_cases ports now tier tr log rc st with
    ⟨e0, _, heq⟩ | ⟨i, e0, _, _, heq⟩ | ⟨i, s, e0, hext, hsent, haddm, heq⟩
      | ⟨i, s, vid, hext, hsent, haddm, heq⟩
  · rw [heq]
    exact ⟨fun e _ => Or.inl rfl, fun pm hpm => by cases hpm⟩
  · rw [heq]
    exact ⟨fun e _ => Or.inl rfl, fun pm hpm => by cases hpm⟩
  · rw [heq]
    constructor
    · intro e he
      cases he
      right
      cases hemb : ports.embedModel (pyTake 8000 (mkPayload
          (assembled now tier tr log ports i s)
          (strOrElse (some tier.value) ((tierStore tier).«namespace»))).document) with
      | ok emb =>
        rw [addMeeting_embed_ok _ _ _ _ _ _ hemb] at haddm
        cases haddm
      | error e1 =>
        have hadd := addMeeting_embed_error (tierStore tier) ports.embedModel
          (assembled now tier tr log ports i s) (some tier.value) st e1 hemb
        rw [hadd] at haddm
        cases haddm
        rw [strOrElse_tier] at hemb hadd
        refine ⟨assembled now tier tr log ports i s, rfl, hemb, ?_⟩
        rw [hadd]
        rfl
    · intro pm hpm
      cases hpm
  · rw [heq]
    constructor
    · intro e he
      cases he
    · intro pm hpm
      cases hemb : ports.embedModel (pyTake 8000 (mkPayload
          (assembled now tier tr log ports i s)
          (strOrElse (some tier.value) ((tierStore tier).«namespace»))).document) with
      | error e1 =>
        rw [addMeeting_embed_error _ _ _ _ _ _ hemb] at haddm
        cases haddm
      | ok emb =>
        have hadd := addMeeting_embed_ok (tierStore tier) ports.embedModel
          (assembled now tier tr log ports i s) (some tier.value) st emb hemb
        rw [hadd]
        unfold getMeeting
        dsimp only [assembled]
        rw [get_set_ne _ _ (Ne.symm (embKey_ne_dataKey _ _ _ _)),
          get_sadd, get_set_self]
        rfl

theorem process_else (ports : PipelinePorts) (enable : Bool) (now : String)
    (t : MeetingTranscript) (st : RedisState)
    (h : ¬(t.tier = TierClassification.sensitive ∧ enable = true)) :
    process ports enable now t st =
      processFrom ports now t.tier t
        [⟨"classification", [("tier", .str t.tier.value)], now⟩] [] st := by
  unfold process
  rw [if_neg h]

theorem process_redact_error (ports : PipelinePorts) (enable : Bool)
    (now : String) (t : MeetingTranscript) (st : RedisState) (e : PyErr)
    (ht : t.tier = .sensitive) (he : enable = true)
    (hr : ports.redactTranscript (origRawText t) = .error e) :
    process ports enable now t st =
      ⟨.error e, st, ⟨[origRawText t], [], []⟩,
       [⟨"classification", [("tier", .str t.tier.value)], now⟩]⟩ := by
  unfold process
  rw [if_pos ⟨ht, he⟩]
  dsimp only
  rw [hr]

theorem process_redact_ok (ports : PipelinePorts) (enable : Bool)
    (now : String) (t : MeetingTranscript) (st : RedisState)
    (rr : RedactionResult)
    (ht : t.tier = .sensitive) (he : enable = true)
    (hr : ports.redactTranscript (origRawText t) = .ok rr) :
    process ports enable now t st =
      processFrom ports now t.tier
        (createRedactedTranscript t rr.redacted_text)
        ([⟨"classification", [("tier", .str t.tier.value)], now⟩]
          ++ [⟨"redaction", [("entities_redacted", .nat rr.redaction_count)], now⟩])
        [origRawText t] st := by
  unfold process
  rw [if_pos ⟨ht, he⟩]
  dsimp only
  rw [hr]

/-! ## Speaker-grouping lemmas -/

theorem analyzeSpeaker_speaker (classifier : String → Except PyErr (String × ℚ))
    (sp : String) (txts : List String) (r : SentimentResult)
    (h : analyzeSpeaker classifier sp txts = .ok r) : r.speaker = sp := by
  unfold analyzeSpeaker at h
  split at h
  · cases h
    rfl
  · dsimp only at h
    split at h
    · cases h
    · split at h
      · cases h
      · cases h
        rfl

theorem exMapM_speakers (classifier : String → Except PyErr (String × ℚ))
    (d : List (String × List String)) (rs : List SentimentResult)
    (h : exMapM (fun p => analyzeSpeaker classifier p.1 p.2) d = .ok rs) :
    rs.map (fun r => r.speaker) = d.map (fun p => p.1) := by
  induction d generalizing rs with
  | nil =>
    cases h
    rfl
  | cons p t ih =>
    cases ha : analyzeSpeaker classifier p.1 p.2 with
    | error e =>
      unfold exMapM at h
      rw [ha] at h
      cases h
    | ok y =>
      cases hm : exMapM (fun p => analyzeSpeaker classifier p.1 p.2) t with
      | error e =>
        unfold exMapM at h
        rw [ha, hm] at h
        cases h
      | ok ys =>
        unfold exMapM at h
        rw [ha, hm] at h
        cases h
        simp only [List.map_cons]
        rw [analyzeSpeaker_speaker classifier p.1 p.2 y ha, ih ys hm]

theorem dictUpsert_keys (d : List (String × List String)) (k : String) (v : String) :
    (dictUpsert d k v).map (fun p => p.1) =
      if k ∈ d.map (fun p => p.1) then d.map (fun p => p.1)
      else d.map (fun p => p.1) ++ [k] := by
  unfold dictUpsert
  have hiff : (d.any (fun p => p.1 = k) = true) ↔ k ∈ d.map (fun p => p.1) := by
    rw [List.any_eq_true]
    constructor
    · rintro ⟨p, hp, he⟩
      exact List.mem_map.mpr ⟨p, hp, of_decide_eq_true he⟩
    · intro hmem
      obtain ⟨p, hp, he⟩ := List.mem_map.mp hmem
      exact ⟨p, hp, decide_eq_true he⟩
  by_cases hmem : k ∈ d.map (fun p => p.1)
  · rw [if_pos (hiff.mpr hmem), if_pos hmem]
    rw [List.map_map]
    apply List.map_congr_left
    intro p _
    by_cases hp : p.1 = k <;> simp [hp]
  · rw [if_neg (fun hh => hmem (hiff.mp hh)), if_neg hmem]
    simp

theorem dictUpsert_keys_nodup (d : List (String × List String)) (k v : String)
    (h : (d.map (fun p => p.1)).Nodup) :
    ((dictUpsert d k v).map (fun p => p.1)).Nodup := by
  rw [dictUpsert_keys]
  by_cases hm : k ∈ d.map (fun p => p.1)
  · rw [if_pos hm]
    exact h
  · rw [if_neg hm]
    simp [List.nodup_append, h, hm]

theorem mem_dictUpsert_keys (d : List (String × List String)) (k v s : String) :
    s ∈ (dictUpsert d k v).map (fun p => p.1)
      ↔ s ∈ d.map (fun p => p.1) ∨ s = k := by
  rw [dictUpsert_keys]
  by_cases hm : k ∈ d.map (fun p => p.1)
  · rw [if_pos hm]
    constructor
    · exact Or.inl
    · rintro (h | rfl)
      · exact h
      · exact hm
  · rw [if_neg hm]
    simp

theorem groupTurns_fold (turns : List DialogueTurn) :
    ∀ d : List (String × List String),
      ((d.map (fun p => p.1)).Nodup →
        ((turns.foldl (fun acc turn => dictUpsert acc turn.speaker turn.text) d).map
          (fun p => p.1)).Nodup)
      ∧ ∀ s, s ∈ (turns.foldl (fun acc turn => dictUpsert acc turn.speaker turn.text) d).map
            (fun p => p.1)
          ↔ s ∈ d.map (fun p => p.1) ∨ s ∈ turns.map (fun turn => turn.speaker) := by
  induction turns with
  | nil =>
    intro d
    exact ⟨id, fun s => by simp⟩
  | cons turn ts ih =>
    intro d
    constructor
    · intro hd
      exact (ih (dictUpsert d turn.speaker turn.text)).1
        (dictUpsert_keys_nodup _ _ _ hd)
    · intro s
      rw [List.foldl_cons, (ih _).2 s, mem_dictUpsert_keys]
      simp only [List.map_cons, List.mem_cons]
      tauto

theorem parseRawLine_keys_nodup (d : List (String × List String)) (line : String)
    (h : (d.map (fun p => p.1)).Nodup) :
    ((parseRawLine d line).map (fun p => p.1)).Nodup := by
  unfold parseRawLine
  dsimp only
  split
  · exact h
  · split
    · exact h
    · split
      · split
        · exact dictUpsert_keys_nodup _ _ _ h
        · exact h
      · exact h

theorem parseRawTranscript_keys_nodup (raw : String) :
    ((parseRawTranscript raw).map (fun p => p.1)).Nodup := by
  have hfold : ∀ (lines : List String) (d : List (String × List String)),
      (d.map (fun p => p.1)).Nodup →
      ((lines.foldl parseRawLine d).map (fun p => p.1)).Nodup := by
    intro lines
    induction lines with
    | nil => intro d h; exact h
    | cons l ls ih =>
      intro d h
      exact ih _ (parseRawLine_keys_nodup d l h)
  exact hfold _ [] (by simp)

/-! ## Stable-sort lemmas -/

theorem insertSorted_perm {α : Type} (le : α → α → Bool) (x : α) (l : List α) :
    (insertSorted le x l).Perm (x :: l) := by
  induction l with
  | nil => exact List.Perm.refl _
  | cons y ys ih =>
    unfold insertSorted
    by_cases hle : le y x = true
    · rw [if_pos hle]
      exact (ih.cons y).trans (List.Perm.swap x y ys)
    · rw [if_neg hle]

theorem mem_insertSorted {α : Type} (le : α → α → Bool) (x a : α) (l : List α) :
    a ∈ insertSorted le x l ↔ a = x ∨ a ∈ l := by
  rw [(insertSorted_perm le x l).mem_iff]
  exact List.mem_cons

theorem pySortBy_perm {α : Type} (le : α → α → Bool) (l : List α) :
    (pySortBy le l).Perm l := by
  have hfold : ∀ (l : List α) (acc : List α),
      (l.foldl (fun acc x => insertSorted le x acc) acc).Perm (l ++ acc) := by
    intro l
    induction l with
    | nil => intro acc; exact List.Perm.refl _
    | cons x xs ih =>
      intro acc
      rw [List.foldl_cons]
      refine (ih (insertSorted le x acc)).trans ?_
      refine ((insertSorted_perm le x acc).append_left xs).trans ?_
      exact List.perm_middle
  simpa using hfold l []

theorem insertSorted_pairwise {α : Type} (le : α → α → Bool)
    (htrans : ∀ a b c, le a b = true → le b c = true → le a c = true)
    (htot : ∀ a b, (le a b || le b a) = true)
    (x : α) (l : List α) (h : l.Pairwise (fun a b => le a b = true)) :
    (insertSorted le x l).Pairwise (fun a b => le a b = true) := by
  induction l with
  | nil => simp [insertSorted]
  | cons y ys ih =>
    rcases List.pairwise_cons.mp h with ⟨hy, hys⟩
    unfold insertSorted
    by_cases hle : le y x = true
    · rw [if_pos hle]
      refine List.pairwise_cons.mpr ⟨?_, ih hys⟩
      intro z hz
      rcases (mem_insertSorted le x z ys).mp hz with rfl | hzys
      · exact hle
      · exact hy z hzys
    · rw [if_neg hle]
      have hxy : le x y = true := by
        rcases Bool.or_eq_true_iff.mp (htot y x) with h1 | h1
        · exact absurd h1 hle
        · exact h1
      refine List.pairwise_cons.mpr ⟨?_, h⟩
      intro z hz
      rcases List.mem_cons.mp hz with rfl | hzys
      · exact hxy
      · exact htrans x y z hxy (hy z hzys)

theorem pySortBy_sorted {α : Type} (le : α → α → Bool)
    (htrans : ∀ a b c, le a b = true → le b c = true → le a c = true)
    (htot : ∀ a b, (le a b || le b a) = true) (l : List α) :
    (pySortBy le l).Pairwise (fun a b => le a b = true) := by
  have hfold : ∀ (l : List α) (acc : List α),
      acc.Pairwise (fun a b => le a b = true) →
      (l.foldl (fun acc x => insertSorted le x acc) acc).Pairwise
        (fun a b => le a b = true) := by
    intro l
    induction l with
    | nil => intro acc h; exact h
    | cons x xs ih =>
      intro acc h
      rw [List.foldl_cons]
      exact ih _ (insertSorted_pairwise le htrans htot x acc h)
  exact hfold l [] List.Pairwise.nil

/-! ## Search and store lemmas -/

theorem searchStore_empty (store : MeetingVectorStore)
    (embedM : String → Except PyErr (List ℚ)) (sim : List ℚ → List ℚ → ℚ)
    (query : String) (ns? : Option String) (n : Nat) (st : RedisState)
    (h : st.smembers ("idx:" ++ strOrElse ns? store.«namespace») = []) :
    searchStore store embedM sim query ns? n st = .ok [] := by
  unfold searchStore
  dsimp only
  rw [h]
  rfl

theorem searchStore_ok_shape (store : MeetingVectorStore)
    (embedM : String → Except PyErr (List ℚ)) (sim : List ℚ → List ℚ → ℚ)
    (query : String) (ns? : Option String) (n : Nat) (st : RedisState)
    (rows : List SearchResult)
    (h : searchStore store embedM sim query ns? n st = .ok rows) :
    rows = [] ∨ ∃ qe, embedM (pyTake 8000 query) = .ok qe ∧
      rows = (pySortBy (fun a b => b.score ≤ a.score)
        ((st.smembers ("idx:" ++ strOrElse ns? store.«namespace»)).filterMap
        (fun mid =>
          match st.get ("emb:" ++ strOrElse ns? store.«namespace» ++ ":" ++ mid),
                st.get ("meeting:" ++ strOrElse ns? store.«namespace» ++ ":" ++ mid) with
          | some (.embv e), some (.payload p) =>
            some { meeting_id := p.metadata.meeting_id, score := sim qe e,
                   content := p.document, metadata := p.metadata }
          | _, _ => none))).take n := by
  unfold searchStore at h
  dsimp only at h
  by_cases hids : st.smembers ("idx:" ++ strOrElse ns? store.«namespace») = []
  · rw [if_pos hids] at h
    cases h
    exact Or.inl rfl
  · rw [if_neg hids] at h
    cases hqe : embedM (pyTake 8000 query) with
    | error e =>
      rw [hqe] at h
      cases h
    | ok qe =>
      rw [hqe] at h
      cases h
      exact Or.inr ⟨qe, rfl, rfl⟩

theorem searchStore_len (store : MeetingVectorStore)
    (embedM : String → Except PyErr (List ℚ)) (sim : List ℚ → List ℚ → ℚ)
    (query : String) (ns? : Option String) (n : Nat) (st : RedisState)
    (rows : List SearchResult)
    (h : searchStore store embedM sim query ns? n st = .ok rows) :
    rows.length ≤ n := by
  rcases searchStore_ok_shape store embedM sim query ns? n st rows h with rfl | ⟨qe, _, rfl⟩
  · simp
  · rw [List.length_take]
    exact min_le_left _ _

theorem searchStore_sorted (store : MeetingVectorStore)
    (embedM : String → Except PyErr (List ℚ)) (sim : List ℚ → List ℚ → ℚ)
    (query : String) (ns? : Option String) (n : Nat) (st : RedisState)
    (rows : List SearchResult)
    (h : searchStore store embedM sim query ns? n st = .ok rows) :
    List.Sorted (fun a b => b.score ≤ a.score) rows := by
  rcases searchStore_ok_shape store embedM sim query ns? n st rows h with rfl | ⟨qe, _, rfl⟩
  · exact List.sorted_nil
  · refine List.Pairwise.sublist (List.take_sublist _ _) ?_
    have hs := pySortBy_sorted
      (fun (a b : SearchResult) => decide (b.score ≤ a.score))
      (fun a b c hab hbc => by
        simp only [decide_eq_true_eq] at *
        exact le_trans hbc hab)
      (fun a b => by
        simp only [Bool.or_eq_true, decide_eq_true_eq]
        exact le_total b.score a.score)
      (((st.smembers ("idx:" ++ strOrElse ns? store.«namespace»)).filterMap
        (fun mid =>
          match st.get ("emb:" ++ strOrElse ns? store.«namespace» ++ ":" ++ mid),
                st.get ("meeting:" ++ strOrElse ns? store.«namespace» ++ ":" ++ mid) with
          | some (.embv e), some (.payload p) =>
            some { meeting_id := p.metadata.meeting_id, score := sim qe e,
                   content := p.document, metadata := p.metadata }
          | _, _ => none)))
    exact hs.imp (fun h => of_decide_eq_true h)

theorem searchStore_mem (store : MeetingVectorStore)
    (embedM : String → Except PyErr (List ℚ)) (sim : List ℚ → List ℚ → ℚ)
    (query : String) (ns? : Option String) (n : Nat) (st : RedisState)
    (rows : List SearchResult)
    (h : searchStore store embedM sim query ns? n st = .ok rows) :
    ∀ r ∈ rows, ∃ qe mid e p,
      embedM (pyTake 8000 query) = .ok qe
      ∧ mid ∈ st.smembers ("idx:" ++ strOrElse ns? store.«namespace»)
      ∧ st.get ("emb:" ++ strOrElse ns? store.«namespace» ++ ":" ++ mid)
          = some (.embv e)
      ∧ st.get ("meeting:" ++ strOrElse ns? store.«namespace» ++ ":" ++ mid)
          = some (.payload p)
      ∧ r = { meeting_id := p.metadata.meeting_id, score := sim qe e,
              content := p.document, metadata := p.metadata } := by
  rcases searchStore_ok_shape store embedM sim query ns? n st rows h with rfl | ⟨qe, hqe, rfl⟩
  · intro r hr
    cases hr
  · intro r hr
    have hr2 := List.mem_of_mem_take hr
    have hr3 := ((pySortBy_perm _ _).mem_iff).mp hr2
    obtain ⟨mid, hmid, hf⟩ := List.mem_filterMap.mp hr3
    cases hg1 : st.get ("emb:" ++ strOrElse ns? store.«namespace» ++ ":" ++ mid) with
    | none =>
      rw [hg1] at hf
      cases hf
    | some v1 =>
      cases v1 with
      | payload p0 =>
        rw [hg1] at hf
        cases hf
      | embv e =>
        cases hg2 : st.get ("meeting:" ++ strOrElse ns? store.«namespace» ++ ":" ++ mid) with
        | none =>
          rw [hg1, hg2] at hf
          cases hf
        | some v2 =>
          cases v2 with
          | embv e2 =>
            rw [hg1, hg2] at hf
            cases hf
          | payload p =>
            rw [hg1, hg2] at hf
            cases hf
            exact ⟨qe, mid, e, p, hqe, hmid, hg1, hg2, rfl⟩

theorem searchStore_ext (store : MeetingVectorStore)
    (embedM : String → Except PyErr (List ℚ)) (sim : List ℚ → List ℚ → ℚ)
    (query : String) (ns? : Option String) (n : Nat) (st1 st2 : RedisState)
    (hidx : st1.smembers ("idx:" ++ strOrElse ns? store.«namespace»)
      = st2.smembers ("idx:" ++ strOrElse ns? store.«namespace»))
    (hemb : ∀ mid, st1.get ("emb:" ++ strOrElse ns? store.«namespace» ++ ":" ++ mid)
      = st2.get ("emb:" ++ strOrElse ns? store.«namespace» ++ ":" ++ mid))
    (hmeet : ∀ mid, st1.get ("meeting:" ++ strOrElse ns? store.«namespace» ++ ":" ++ mid)
      = st2.get ("meeting:" ++ strOrElse ns? store.«namespace» ++ ":" ++ mid)) :
    searchStore store embedM sim query ns? n st1
      = searchStore store embedM sim query ns? n st2 := by
  unfold searchStore
  dsimp only
  rw [hidx]
  by_cases hids : st2.smembers ("idx:" ++ strOrElse ns? store.«namespace») = []
  · rw [if_pos hids, if_pos hids]
  · rw [if_neg hids, if_neg hids]
    cases hqe : embedM (pyTake 8000 query) with
    | error e => rfl
    | ok qe =>
      dsimp only
      have hfm : List.filterMap (fun mid =>
          match st1.get ("emb:" ++ strOrElse ns? store.«namespace» ++ ":" ++ mid),
                st1.get ("meeting:" ++ strOrElse ns? store.«namespace» ++ ":" ++ mid) with
          | some (.embv e), some (.payload p) =>
            some ({ meeting_id := p.metadata.meeting_id, score := sim qe e,
                    content := p.document, metadata := p.metadata } : SearchResult)
          | _, _ => none)
          (st2.smembers ("idx:" ++ strOrElse ns? store.«namespace»))
        = List.filterMap (fun mid =>
          match st2.get ("emb:" ++ strOrElse ns? store.«namespace» ++ ":" ++ mid),
                st2.get ("meeting:" ++ strOrElse ns? store.«namespace» ++ ":" ++ mid) with
          | some (.embv e), some (.payload p) =>
            some ({ meeting_id := p.metadata.meeting_id, score := sim qe e,
                    content := p.document, metadata := p.metadata } : SearchResult)
          | _, _ => none)
          (st2.smembers ("idx:" ++ strOrElse ns? store.«namespace»)) :=
        List.filterMap_congr (fun mid _ => by rw [hemb mid, hmeet mid])
      rw [hfm]

theorem addMeeting_frame (storeW storeR : MeetingVectorStore)
    (embedM : String → Except PyErr (List ℚ)) (m : ProcessedMeeting)
    (ns : Option String) (st : RedisState)
    (hd : ∀ a b, dataKey storeR a ≠ dataKey storeW b)
    (hi : indexKey storeR ≠ indexKey storeW) :
    (∀ id, getMeeting storeR id (addMeeting storeW embedM m ns st).2
      = getMeeting storeR id st)
    ∧ (addMeeting storeW embedM m ns st).2.smembers (indexKey storeR)
      = st.smembers (indexKey storeR)
    ∧ listMeetings storeR (addMeeting storeW embedM m ns st).2
      = listMeetings storeR st := by
  have hget : ∀ id, getMeeting storeR id (addMeeting storeW embedM m ns st).2
      = getMeeting storeR id st := by
    intro id
    cases hemb : embedM (pyTake 8000
        (mkPayload m (strOrElse ns storeW.«namespace»)).document) with
    | error e =>
      rw [addMeeting_embed_error _ _ _ _ _ _ hemb]
      unfold getMeeting
      rw [get_sadd, get_set_ne _ _ (hd id m.meeting_id)]
    | ok emb =>
      rw [addMeeting_embed_ok _ _ _ _ _ _ hemb]
      unfold getMeeting
      rw [get_set_ne _ _ (Ne.symm (embKey_ne_dataKey storeW storeR m.meeting_id id)),
        get_sadd, get_set_ne _ _ (hd id m.meeting_id)]
  have hsm : (addMeeting storeW embedM m ns st).2.smembers (indexKey storeR)
      = st.smembers (indexKey storeR) := by
    cases hemb : embedM (pyTake 8000
        (mkPayload m (strOrElse ns storeW.«namespace»)).document) with
    | error e =>
      rw [addMeeting_embed_error _ _ _ _ _ _ hemb]
      rw [smembers_sadd_ne _ _ hi, smembers_set]
    | ok emb =>
      rw [addMeeting_embed_ok _ _ _ _ _ _ hemb]
      rw [smembers_set, smembers_sadd_ne _ _ hi, smembers_set]
  refine ⟨hget, hsm, ?_⟩
  unfold listMeetings
  rw [hsm]
  apply List.filterMap_congr
  intro mid _
  rw [hget mid]

/-! ## Claims -/

/-- **C4.**  For ordinary-tier transcripts `process` never invokes the
Redaction Port (call count 0); for sensitive-tier transcripts with redaction
enabled it invokes it exactly once, on the original plain text; and —
whenever the port's result changes the text when its `redaction_count` is
positive (the behaviour of a replacing anonymiser; the PII engine itself is
external) — the transcript handed to extraction carries the redacted text,
which differs from the original raw text whenever `redactionCount > 0`. -/
theorem C4_redaction_policy (ports : PipelinePorts) (enable : Bool)
    (now : String) (t : MeetingTranscript) (st : RedisState) :
    (t.tier = .ordinary →
      (process ports enable now t st).trace.redactCalls = [])
    ∧ (t.tier = .sensitive → enable = true →
      (process ports enable now t st).trace.redactCalls = [origRawText t])
    ∧ (∀ rr : RedactionResult, t.tier = .sensitive → enable = true →
      ports.redactTranscript (origRawText t) = .ok rr →
      (rr.redaction_count > 0 → rr.redacted_text ≠ origRawText t) →
      (process ports enable now t st).trace.extractCalls.map
          (fun tr => tr.raw_text) = [some rr.redacted_text]
      ∧ (rr.redaction_count > 0 →
        (process ports enable now t st).trace.extractCalls.map
          (fun tr => tr.raw_text) ≠ [some (origRawText t)])) := by
  refine ⟨?_, ?_, ?_⟩
  · intro ht
    rw [process_else ports enable now t st (by rintro ⟨h1, _⟩; rw [ht] at h1; cases h1)]
    exact processFrom_redactCalls ..
  · intro ht he
    cases hr : ports.redactTranscript (origRawText t) with
    | error e =>
      rw [process_redact_error ports enable now t st e ht he hr]
    | ok rr =>
      rw [process_redact_ok ports enable now t st rr ht he hr]
      exact processFrom_redactCalls ..
  · intro rr ht he hr hne
    rw [process_redact_ok ports enable now t st rr ht he hr]
    rw [processFrom_extractCalls]
    constructor
    · rfl
    · intro hcount
      simp only [List.map_cons, List.map_nil, ne_eq, List.cons.injEq, and_true]
      intro hsome
      exact hne hcount (Option.some.inj hsome)

/-- Witness for C4 at the concrete fixtures. -/
theorem C4_redaction_policy_witness :
    (process fxPorts true "now" fxOrdTranscript RedisState.empty).trace.redactCalls = []
    ∧ (process fxPorts true "now" fxSensTranscript RedisState.empty).trace.redactCalls
        = [origRawText fxSensTranscript]
    ∧ (process fxPorts true "now" fxSensTranscript RedisState.empty).trace.extractCalls.map
        (fun tr => tr.raw_text)
        = [some "[00:00] <PERSON>: hello world today ok"] :=
  ⟨(C4_redaction_policy fxPorts true "now" fxOrdTranscript RedisState.empty).1 rfl,
   (C4_redaction_policy fxPorts true "now" fxSensTranscript RedisState.empty).2.1 rfl rfl,
   ((C4_redaction_policy fxPorts true "now" fxSensTranscript RedisState.empty).2.2
      { redacted_text := "[00:00] <PERSON>: hello world today ok",
        redaction_count := 1 }
      rfl rfl rfl (by decide)).1⟩

/-- **C1 fails on the code.**  At a sensitive transcript whose raw text names
the speaker Alice, with a redactor that replaces the name by `<PERSON>`, the
returned record's sentiments are grouped by `<PERSON>` — computed from the
*redacted* transcript — while the Sentiment Analyzer applied to the original
transcript groups by `Alice`: `process` reassigns `transcript` to the
redacted one before step 4. -/
theorem C1_counterexample :
    (process fxPorts true "now" fxSensTranscript RedisState.empty).result.map
      (fun pm => pm.sentiments.map (fun s => s.speaker)) = .ok ["<PERSON>"]
    ∧ (analyzeMeeting fxPorts.classifier fxSensTranscript).map
      (fun rs => rs.map (fun s => s.speaker)) = .ok ["Alice"]
    ∧ (process fxPorts true "now" fxSensTranscript RedisState.empty).result.map
      (fun pm => pm.sentiments)
      ≠ analyzeMeeting fxPorts.classifier fxSensTranscript := by
  decide

/-- **C1 (amended).**  For a sensitive transcript processed with redaction
enabled, the Sentiment Port is invoked on the *redacted* transcript built by
`_create_redacted_transcript` (turns dropped, `raw_text` replaced), and the
returned record's sentiments are exactly those computed from that redacted
transcript — not from the original. -/
theorem C1_amended (ports : PipelinePorts) (now : String)
    (t : MeetingTranscript) (st : RedisState) (rr : RedactionResult)
    (pm : ProcessedMeeting)
    (ht : t.tier = .sensitive)
    (hr : ports.redactTranscript (origRawText t) = .ok rr)
    (hpm : (process ports true now t st).result = .ok pm) :
    (process ports true now t st).trace.sentimentCalls
      = [createRedactedTranscript t rr.redacted_text]
    ∧ analyzeMeeting ports.classifier (createRedactedTranscript t rr.redacted_text)
      = .ok pm.sentiments := by
  rw [process_redact_ok ports true now t st rr ht rfl hr] at hpm ⊢
  rcases processFrom_cases ports now t.tier
      (createRedactedTranscript t rr.redacted_text)
      ([⟨"classification", [("tier", .str t.tier.value)], now⟩]
        ++ [⟨"redaction", [("entities_redacted", .nat rr.redaction_count)], now⟩])
      [origRawText t] st with
    ⟨e, _, heq⟩ | ⟨i, e, _, _, heq⟩ | ⟨i, s, e, _, _, _, heq⟩
      | ⟨i, s, vid, hext, hsent, haddm, heq⟩
  · rw [heq] at hpm; cases hpm
  · rw [heq] at hpm; cases hpm
  · rw [heq] at hpm; cases hpm
  · rw [heq] at hpm ⊢
    cases hpm
    exact ⟨rfl, hsent⟩

/-- Witness for the amended C1 at the concrete fixtures. -/
theorem C1_amended_witness :
    (process fxPorts true "now" fxSensTranscript RedisState.empty).trace.sentimentCalls
      = [createRedactedTranscript fxSensTranscript
          "[00:00] <PERSON>: hello world today ok"]
    ∧ analyzeMeeting fxPorts.classifier
        (createRedactedTranscript fxSensTranscript
          "[00:00] <PERSON>: hello world today ok")
      = .ok fxSensPM.sentiments :=
  C1_amended fxPorts "now" fxSensTranscript RedisState.empty
    { redacted_text := "[00:00] <PERSON>: hello world today ok",
      redaction_count := 1 }
    fxSensPM rfl rfl (by decide)

/-- **C2 fails on the code.**  A successful ordinary-tier `process` run
returns a record whose audit log is exactly
`classification, extraction, sentiment` — the `storage` entry, appended to
the method-local list after the Pydantic model snapshotted it, is *not* in
the returned record's list (it is in the local list). -/
theorem C2_counterexample :
    (process fxPorts true "now" fxOrdTranscript RedisState.empty).result.map
      (fun pm => pm.audit_log.map (fun en => en.step))
      = .ok ["classification", "extraction", "sentiment"]
    ∧ "storage" ∉ (["classification", "extraction", "sentiment"] : List String)
    ∧ (process fxPorts true "now" fxOrdTranscript RedisState.empty).localAuditLog.map
        (fun en => en.step)
      = ["classification", "extraction", "sentiment", "storage"] := by
  decide

/-- **C2 (amended).**  For every successful `process` call the returned
record's audit log is, in order, `classification`, (`redaction` when
tier = sensitive and redaction is enabled), `extraction`, `sentiment`; the
`storage` entry is appended only to the orchestrator's method-local list
(which ends with it) and — because Pydantic v2 copies the list at model
construction — is not visible in the returned record. -/
theorem C2_amended (ports : PipelinePorts) (enable : Bool) (now : String)
    (t : MeetingTranscript) (st : RedisState) (pm : ProcessedMeeting)
    (hpm : (process ports enable now t st).result = .ok pm) :
    pm.audit_log.map (fun en => en.step)
      = ["classification"]
        ++ (if t.tier = TierClassification.sensitive ∧ enable = true
            then ["redaction"] else [])
        ++ ["extraction", "sentiment"]
    ∧ "storage" ∉ pm.audit_log.map (fun en => en.step)
    ∧ (process ports enable now t st).localAuditLog.map (fun en => en.step)
      = pm.audit_log.map (fun en => en.step) ++ ["storage"] := by
  by_cases hcond : t.tier = TierClassification.sensitive ∧ enable = true
  · obtain ⟨ht, he⟩ := hcond
    subst he
    cases hr : ports.redactTranscript (origRawText t) with
    | error e =>
      rw [process_redact_error ports true now t st e ht rfl hr] at hpm
      cases hpm
    | ok rr =>
      rw [process_redact_ok ports true now t st rr ht rfl hr] at hpm ⊢
      rcases processFrom_cases ports now t.tier
          (createRedactedTranscript t rr.redacted_text)
          ([⟨"classification", [("tier", .str t.tier.value)], now⟩]
            ++ [⟨"redaction", [("entities_redacted", .nat rr.redaction_count)], now⟩])
          [origRawText t] st with
        ⟨e, _, heq⟩ | ⟨i, e, _, _, heq⟩ | ⟨i, s, e, _, _, _, heq⟩
          | ⟨i, s, vid, hext, hsent, haddm, heq⟩
      · rw [heq] at hpm; cases hpm
      · rw [heq] at hpm; cases hpm
      · rw [heq] at hpm; cases hpm
      · rw [heq] at hpm ⊢
        cases hpm
        refine ⟨?_, ?_, ?_⟩
        · simp [assembled, ht]
        · simp [assembled]
        · simp [assembled]
  · rw [process_else ports enable now t st hcond] at hpm ⊢
    rcases processFrom_cases ports now t.tier t
        [⟨"classification", [("tier", .str t.tier.value)], now⟩] [] st with
      ⟨e, _, heq⟩ | ⟨i, e, _, _, heq⟩ | ⟨i, s, e, _, _, _, heq⟩
        | ⟨i, s, vid, hext, hsent, haddm, heq⟩
    · rw [heq] at hpm; cases hpm
    · rw [heq] at hpm; cases hpm
    · rw [heq] at hpm; cases hpm
    · rw [heq] at hpm ⊢
      cases hpm
      refine ⟨?_, ?_, ?_⟩
      · simp [assembled, hcond]
      · simp [assembled]
      · simp [assembled]

/-- Witness for the amended C2 at the concrete fixtures. -/
theorem C2_amended_witness :
    fxOrdPM.audit_log.map (fun en => en.step)
      = ["classification"]
        ++ (if fxOrdTranscript.tier = TierClassification.sensitive ∧ true = true
            then ["redaction"] else [])
        ++ ["extraction", "sentiment"]
    ∧ "storage" ∉ fxOrdPM.audit_log.map (fun en => en.step)
    ∧ (process fxPorts true "now" fxOrdTranscript RedisState.empty).localAuditLog.map
        (fun en => en.step)
      = fxOrdPM.audit_log.map (fun en => en.step) ++ ["storage"] :=
  C2_amended fxPorts true "now" fxOrdTranscript RedisState.empty fxOrdPM (by decide)

/-- **C3 fails on the code.**  When the embedding backend raises during the
storage step, the exception propagates *and* the record plus its index
membership are already persisted: `add_meeting` runs its `set`+`sadd`
transaction before computing the embedding.  So "nothing is stored" is
violated. -/
theorem C3_counterexample :
    (process fxFailEmbedPorts true "now" fxOrdTranscript RedisState.empty).result
      = .error ⟨"embedding model unavailable"⟩
    ∧ (getMeeting ordinaryStore "m1"
        (process fxFailEmbedPorts true "now" fxOrdTranscript
          RedisState.empty).state).isSome = true
    ∧ "m1" ∈ (process fxFailEmbedPorts true "now" fxOrdTranscript
        RedisState.empty).state.smembers "idx:ordinary"
    ∧ (process fxFailEmbedPorts true "now" fxOrdTranscript RedisState.empty).state
      ≠ RedisState.empty := by
  decide

/-- **C3 (amended).**  When `process` raises, either the store is unchanged
(redaction, extraction or sentiment failed — nothing persisted), or the
failure happened in the embedding computation/write inside the storage step,
after the atomic record+index batch: then exactly the assembled record and
its index membership are persisted (no embedding) and the exception still
propagates.  On success the record is retrievable from the tier's store. -/
theorem C3_amended (ports : PipelinePorts) (enable : Bool) (now : String)
    (t : MeetingTranscript) (st : RedisState) :
    (∀ e, (process ports enable now t st).result = .error e →
      (process ports enable now t st).state = st
      ∨ ∃ pm : ProcessedMeeting,
          pm.meeting_id = t.meeting_id ∧
          ports.embedModel (pyTake 8000 (mkPayload pm t.tier.value).document)
            = .error e ∧
          (process ports enable now t st).state =
            (st.set (dataKey (tierStore t.tier) t.meeting_id)
              (.payload (mkPayload pm t.tier.value))).sadd
              (indexKey (tierStore t.tier)) t.meeting_id)
    ∧ (∀ pm, (process ports enable now t st).result = .ok pm →
        (getMeeting (tierStore t.tier) t.meeting_id
          (process ports enable now t st).state).isSome = true) := by
  by_cases hcond : t.tier = TierClassification.sensitive ∧ enable = true
  · obtain ⟨ht, he⟩ := hcond
    subst he
    cases hr : ports.redactTranscript (origRawText t) with
    | error e0 =>
      rw [process_redact_error ports true now t st e0 ht rfl hr]
      exact ⟨fun e _ => Or.inl rfl, fun pm hpm => by cases hpm⟩
    | ok rr =>
      rw [process_redact_ok ports true now t st rr ht rfl hr]
      exact processFrom_state_cases ports now t.tier
        (createRedactedTranscript t rr.redacted_text) _ _ st
  · rw [process_else ports enable now t st hcond]
    exact processFrom_state_cases ports now t.tier t _ _ st

/-- Witness for the amended C3 at the concrete fixtures: a failing embedder
(first conjunct) and a successful run (second conjunct). -/
theorem C3_amended_witness :
    ((process fxFailEmbedPorts true "now" fxOrdTranscript RedisState.empty).state
        = RedisState.empty
      ∨ ∃ pm : ProcessedMeeting,
          pm.meeting_id = fxOrdTranscript.meeting_id ∧
          fxFailEmbedPorts.embedModel
            (pyTake 8000 (mkPayload pm fxOrdTranscript.tier.value).document)
            = .error ⟨"embedding model unavailable"⟩ ∧
          (process fxFailEmbedPorts true "now" fxOrdTranscript
            RedisState.empty).state =
            (RedisState.empty.set
              (dataKey (tierStore fxOrdTranscript.tier) fxOrdTranscript.meeting_id)
              (.payload (mkPayload pm fxOrdTranscript.tier.value))).sadd
              (indexKey (tierStore fxOrdTranscript.tier)) fxOrdTranscript.meeting_id)
    ∧ (getMeeting (tierStore fxOrdTranscript.tier) fxOrdTranscript.meeting_id
        (process fxPorts true "now" fxOrdTranscript RedisState.empty).state).isSome
      = true :=
  ⟨(C3_amended fxFailEmbedPorts true "now" fxOrdTranscript RedisState.empty).1
      ⟨"embedding model unavailable"⟩ (by decide),
   (C3_amended fxPorts true "now" fxOrdTranscript RedisState.empty).2
      fxOrdPM (by decide)⟩

/-- **C8.**  `_cosine_similarity` satisfies: `similarity(v, v) = 1` for every
vector `v` with a nonzero component (the source's float `≈ 1.0` is exact over
`ℝ`); `similarity(a, b) = 0` whenever `a` or `b` has zero norm, with no
division performed in that branch; and `similarity` is symmetric. -/
theorem C8_cosine_similarity :
    (∀ v : List ℝ, (∃ x ∈ v, x ≠ 0) → cosineSimilarity v v = 1)
    ∧ (∀ a b : List ℝ, normR a = 0 ∨ normR b = 0 → cosineSimilarity a b = 0)
    ∧ (∀ a b : List ℝ, cosineSimilarity a b = cosineSimilarity b a) := by
  refine ⟨?_, ?_, ?_⟩
  · intro v hv
    have hpos : 0 < dotR v v := dotR_self_pos v hv
    have hden : normR v * normR v = dotR v v :=
      Real.mul_self_sqrt (dotR_self_nonneg v)
    unfold cosineSimilarity
    rw [hden, if_neg (ne_of_gt hpos)]
    exact div_self (ne_of_gt hpos)
  · intro a b h
    have hden : normR a * normR b = 0 := by
      rcases h with h | h
      · rw [h, zero_mul]
      · rw [h, mul_zero]
    unfold cosineSimilarity
    rw [if_pos hden]
  · intro a b
    unfold cosineSimilarity
    rw [dotR_comm, mul_comm (normR a) (normR b)]

/-- Witness for C8 at concrete vectors. -/
theorem C8_cosine_similarity_witness :
    cosineSimilarity [1, 0] [1, 0] = 1
    ∧ cosineSimilarity [0, 0] [3, 4] = 0
    ∧ cosineSimilarity [1, 2] [3, 4] = cosineSimilarity [3, 4] [1, 2] := by
  refine ⟨C8_cosine_similarity.1 [1, 0] ⟨1, by norm_num⟩,
    C8_cosine_similarity.2.1 [0, 0] [3, 4] (Or.inl ?_),
    C8_cosine_similarity.2.2 [1, 2] [3, 4]⟩
  unfold normR dotR
  norm_num

/-- **C9.**  A successful `analyze_meeting` returns exactly one sentiment
entry per distinct speaker name observed in the transcript's turns (or
parsed from `raw_text` when there are no turns): the returned speakers are
duplicate-free and coincide, as a set, with the observed speakers.  A
transcript with zero turns and no (or empty) raw text yields `[]` rather
than an error. -/
theorem C9_sentiments_per_speaker (classifier : String → Except PyErr (String × ℚ))
    (t : MeetingTranscript) :
    (∀ rs, analyzeMeeting classifier t = .ok rs →
      (rs.map (fun r => r.speaker)).Nodup
      ∧ ∀ s, s ∈ rs.map (fun r => r.speaker) ↔ s ∈ observedSpeakers t)
    ∧ (t.turns = [] → optStrTruthy t.raw_text = false →
        analyzeMeeting classifier t = .ok []) := by
  constructor
  · intro rs h
    have hsp := exMapM_speakers classifier (speakerTurnsOf t) rs h
    rw [hsp]
    unfold speakerTurnsOf observedSpeakers
    by_cases hturns : t.turns ≠ []
    · rw [if_pos hturns, if_pos hturns]
      constructor
      · exact (groupTurns_fold t.turns []).1 (by simp)
      · intro s
        rw [(groupTurns_fold t.turns []).2 s]
        simp
    · rw [if_neg hturns, if_neg hturns]
      by_cases htruthy : optStrTruthy t.raw_text = true
      · rw [if_pos htruthy, if_pos htruthy]
        exact ⟨parseRawTranscript_keys_nodup _, fun s => Iff.rfl⟩
      · rw [if_neg htruthy, if_neg htruthy]
        simp
  · intro h1 h2
    unfold analyzeMeeting speakerTurnsOf
    rw [if_neg (by simpa using h1), if_neg (by simp [h2])]
    rfl

/-- Witness for C9: the two-speaker fixture and the empty transcript. -/
theorem C9_sentiments_per_speaker_witness :
    (fxOrdPM.sentiments.map (fun r => r.speaker)).Nodup
    ∧ ("Alice" ∈ fxOrdPM.sentiments.map (fun r => r.speaker)
        ↔ "Alice" ∈ observedSpeakers fxOrdTranscript)
    ∧ analyzeMeeting fxPorts.classifier fxEmptyTranscript = .ok [] :=
  ⟨((C9_sentiments_per_speaker fxPorts.classifier fxOrdTranscript).1
      fxOrdPM.sentiments (by decide)).1,
   ((C9_sentiments_per_speaker fxPorts.classifier fxOrdTranscript).1
      fxOrdPM.sentiments (by decide)).2 "Alice",
   (C9_sentiments_per_speaker fxPorts.classifier fxEmptyTranscript).2 rfl rfl⟩

/-- **C5.**  Unscoped `search_meetings` reads only the ordinary namespace:
its result depends only on the `idx:ordinary` set and the
`meeting:ordinary:*` / `emb:ordinary:*` keys (two stores agreeing there are
indistinguishable, however their sensitive namespaces differ), and every
returned row is built from a record reachable from the ordinary index — no
sensitive-namespace record ever appears. -/
theorem C5_unscoped_search_isolation (ports : PipelinePorts)
    (sim : List ℚ → List ℚ → ℚ) (query : String) (n : Nat)
    (st1 st2 : RedisState)
    (hidx : st1.smembers "idx:ordinary" = st2.smembers "idx:ordinary")
    (hembk : ∀ mid, st1.get ("emb:ordinary:" ++ mid)
      = st2.get ("emb:ordinary:" ++ mid))
    (hmeetk : ∀ mid, st1.get ("meeting:ordinary:" ++ mid)
      = st2.get ("meeting:ordinary:" ++ mid)) :
    searchMeetings ports sim query none n st1
      = searchMeetings ports sim query none n st2
    ∧ ∀ st rows, searchMeetings ports sim query none n st = .ok rows →
        ∀ r ∈ rows, ∃ mid p,
          mid ∈ st.smembers "idx:ordinary"
          ∧ st.get ("meeting:ordinary:" ++ mid) = some (.payload p)
          ∧ r.meeting_id = p.metadata.meeting_id
          ∧ r.title = p.metadata.title := by
  constructor
  · unfold searchMeetings
    dsimp only
    have hss := searchStore_ext ordinaryStore ports.embedModel sim query
      (some "ordinary") n st1 st2
      (by rw [strOrElse_ordinary, idx_ord_key]; exact hidx)
      (fun mid => by rw [strOrElse_ordinary, emb_ord_key]; exact hembk mid)
      (fun mid => by rw [strOrElse_ordinary, meet_ord_key]; exact hmeetk mid)
    rw [hss]
  · intro st rows h
    unfold searchMeetings at h
    dsimp only at h
    cases hss : searchStore ordinaryStore ports.embedModel sim query
        (some "ordinary") n st with
    | error e =>
      rw [hss] at h
      cases h
    | ok results =>
      rw [hss] at h
      cases h
      intro r hr
      obtain ⟨r0, hr0, rfl⟩ := List.mem_map.mp hr
      obtain ⟨qe, mid, e, p, _, hmid, _, hmeet0, rfl⟩ :=
        searchStore_mem ordinaryStore ports.embedModel sim query
          (some "ordinary") n st results hss r0 hr0
      refine ⟨mid, p, ?_, ?_, rfl, rfl⟩
      · rw [strOrElse_ordinary, idx_ord_key] at hmid
        exact hmid
      · rw [strOrElse_ordinary, meet_ord_key] at hmeet0
        exact hmeet0

/-- Witness for C5: a state with one extra sensitive-namespace record is
indistinguishable from the base state in an unscoped search. -/
theorem C5_unscoped_search_isolation_witness :
    searchMeetings fxPorts fxSim "q" none 5 fxStAB
      = searchMeetings fxPorts fxSim "q" none 5 fxStABS :=
  (C5_unscoped_search_isolation fxPorts fxSim "q" 5 fxStAB fxStABS
    (by decide)
    (fun mid => by
      unfold fxStABS
      rw [get_sadd,
        get_set_ne _ _ (str_ne_of_append_take_ne "emb:ordinary:"
          "emb:sensitive:" mid "s" 5 (by decide) (by decide) (by decide)),
        get_set_ne _ _ (str_ne_of_append_take_ne "emb:ordinary:"
          "meeting:sensitive:" mid "s" 1 (by decide) (by decide) (by decide))])
    (fun mid => by
      unfold fxStABS
      rw [get_sadd,
        get_set_ne _ _ (str_ne_of_append_take_ne "meeting:ordinary:"
          "emb:sensitive:" mid "s" 1 (by decide) (by decide) (by decide)),
        get_set_ne _ _ (str_ne_of_append_take_ne "meeting:ordinary:"
          "meeting:sensitive:" mid "s" 9 (by decide) (by decide) (by decide))])).1

/-- **C6.**  Namespace isolation: adding a meeting through the sensitive
store changes nothing `getMeeting`/`listMeetings` of the ordinary store can
observe, and vice versa — so a meeting stored only under one namespace is
never returned from the other; moreover every record key, embedding key and
index set is prefixed with the owning store's namespace. -/
theorem C6_namespace_isolation (embedM : String → Except PyErr (List ℚ))
    (m : ProcessedMeeting) (ns : Option String) (st : RedisState) :
    (∀ id, getMeeting ordinaryStore id (addMeeting sensitiveStore embedM m ns st).2
      = getMeeting ordinaryStore id st)
    ∧ listMeetings ordinaryStore (addMeeting sensitiveStore embedM m ns st).2
      = listMeetings ordinaryStore st
    ∧ (∀ id, getMeeting sensitiveStore id (addMeeting ordinaryStore embedM m ns st).2
      = getMeeting sensitiveStore id st)
    ∧ listMeetings sensitiveStore (addMeeting ordinaryStore embedM m ns st).2
      = listMeetings sensitiveStore st
    ∧ (∀ s : MeetingVectorStore, ∀ id,
        dataKey s id = "meeting:" ++ s.«namespace» ++ ":" ++ id
        ∧ embKey s id = "emb:" ++ s.«namespace» ++ ":" ++ id)
    ∧ (∀ s : MeetingVectorStore, indexKey s = "idx:" ++ s.«namespace») := by
  have hfr1 := addMeeting_frame sensitiveStore ordinaryStore embedM m ns st
    dataKey_ord_ne_sens (by decide)
  have hfr2 := addMeeting_frame ordinaryStore sensitiveStore embedM m ns st
    (fun a b h => dataKey_ord_ne_sens b a h.symm) (by decide)
  exact ⟨hfr1.1, hfr1.2.2, hfr2.1, hfr2.2.2, fun s id => ⟨rfl, rfl⟩, fun s => rfl⟩

/-- **C7.**  `search` returns at most `limit` rows, sorted by descending
score, where each row's score is the similarity of the query's embedding and
that meeting's stored embedding (rows come only from the namespace's index);
and it returns `[]` — without invoking the embedder, hence without raising —
when the namespace's index is empty. -/
theorem C7_search_ranking (store : MeetingVectorStore)
    (embedM : String → Except PyErr (List ℚ)) (sim : List ℚ → List ℚ → ℚ)
    (query : String) (ns? : Option String) (n : Nat) (st : RedisState) :
    (st.smembers ("idx:" ++ strOrElse ns? store.«namespace») = [] →
      searchStore store embedM sim query ns? n st = .ok [])
    ∧ (∀ rows, searchStore store embedM sim query ns? n st = .ok rows →
        rows.length ≤ n
        ∧ List.Sorted (fun a b => b.score ≤ a.score) rows
        ∧ ∀ r ∈ rows, ∃ qe mid e p,
            embedM (pyTake 8000 query) = .ok qe
            ∧ mid ∈ st.smembers ("idx:" ++ strOrElse ns? store.«namespace»)
            ∧ st.get ("emb:" ++ strOrElse ns? store.«namespace» ++ ":" ++ mid)
                = some (.embv e)
            ∧ st.get ("meeting:" ++ strOrElse ns? store.«namespace» ++ ":" ++ mid)
                = some (.payload p)
            ∧ r = { meeting_id := p.metadata.meeting_id, score := sim qe e,
                    content := p.document, metadata := p.metadata }) :=
  ⟨searchStore_empty store embedM sim query ns? n st,
   fun rows h =>
    ⟨searchStore_len store embedM sim query ns? n st rows h,
     searchStore_sorted store embedM sim query ns? n st rows h,
     searchStore_mem store embedM sim query ns? n st rows h⟩⟩

/-- Witness for C7: the empty namespace and a two-meeting namespace whose
rows come out descending. -/
theorem C7_search_ranking_witness :
    searchStore ordinaryStore fxPorts.embedModel fxSim "q" (some "ordinary") 5
      RedisState.empty = .ok []
    ∧ fxRows.length ≤ 5
    ∧ List.Sorted (fun a b => b.score ≤ a.score) fxRows :=
  ⟨(C7_search_ranking ordinaryStore fxPorts.embedModel fxSim "q"
      (some "ordinary") 5 RedisState.empty).1 rfl,
   ((C7_search_ranking ordinaryStore fxPorts.embedModel fxSim "q"
      (some "ordinary") 5 fxStAB).2 fxRows (by decide)).1,
   ((C7_search_ranking ordinaryStore fxPorts.embedModel fxSim "q"
      (some "ordinary") 5 fxStAB).2 fxRows (by decide)).2.1⟩

/-- **C10 (implicit).**  `add_meeting` with an explicit `namespace` argument
`ns` different from the store's own namespace `n` still writes the record,
the index membership and the embedding under keys prefixed with `n`: the
record is retrievable through the store itself, while the `ns`-namespace
partition is untouched; only the returned `vector_id` and the stored
metadata use `ns`, so the returned id's prefix does not match the partition
where the record actually lives. -/
theorem C10_add_meeting_namespace (embedM : String → Except PyErr (List ℚ))
    (n ns : String) (m : ProcessedMeeting) (st : RedisState)
    (hns : ns ≠ "") :
    getMeeting ⟨n⟩ m.meeting_id (addMeeting ⟨n⟩ embedM m (some ns) st).2
      = some (mkPayload m ns)
    ∧ m.meeting_id ∈ (addMeeting ⟨n⟩ embedM m (some ns) st).2.smembers (indexKey ⟨n⟩)
    ∧ (∀ vid, (addMeeting ⟨n⟩ embedM m (some ns) st).1 = .ok vid →
        vid = ns ++ "_" ++ m.meeting_id)
    ∧ (mkPayload m ns).metadata.«namespace» = ns
    ∧ (mkPayload m ns).vector_id = ns ++ "_" ++ m.meeting_id
    ∧ (ns ≠ n →
        getMeeting ⟨ns⟩ m.meeting_id (addMeeting ⟨n⟩ embedM m (some ns) st).2
          = getMeeting ⟨ns⟩ m.meeting_id st) := by
  have hso : strOrElse (some ns) (MeetingVectorStore.mk n).«namespace» = ns := by
    simp [strOrElse, hns]
  refine ⟨?_, ?_, ?_, rfl, rfl, ?_⟩
  · cases hemb : embedM (pyTake 8000
        (mkPayload m (strOrElse (some ns) (MeetingVectorStore.mk n).«namespace»)).document) with
    | error e =>
      rw [addMeeting_embed_error _ _ _ _ _ _ hemb]
      unfold getMeeting
      rw [get_sadd, get_set_self, hso]
    | ok emb =>
      rw [addMeeting_embed_ok _ _ _ _ _ _ hemb]
      unfold getMeeting
      rw [get_set_ne _ _ (Ne.symm (embKey_ne_dataKey _ _ _ _)),
        get_sadd, get_set_self, hso]
  · cases hemb : embedM (pyTake 8000
        (mkPayload m (strOrElse (some ns) (MeetingVectorStore.mk n).«namespace»)).document) with
    | error e =>
      rw [addMeeting_embed_error _ _ _ _ _ _ hemb]
      exact mem_smembers_sadd_self _ _ _
    | ok emb =>
      rw [addMeeting_embed_ok _ _ _ _ _ _ hemb]
      rw [smembers_set]
      exact mem_smembers_sadd_self _ _ _
  · intro vid hvid
    cases hemb : embedM (pyTake 8000
        (mkPayload m (strOrElse (some ns) (MeetingVectorStore.mk n).«namespace»)).document) with
    | error e =>
      rw [addMeeting_embed_error _ _ _ _ _ _ hemb] at hvid
      cases hvid
    | ok emb =>
      rw [addMeeting_embed_ok _ _ _ _ _ _ hemb] at hvid
      cases hvid
      rw [hso]
  · intro hnsn
    have hdk : dataKey ⟨ns⟩ m.meeting_id ≠ dataKey ⟨n⟩ m.meeting_id :=
      fun he => hnsn (dataKey_inj_ns he)
    cases hemb : embedM (pyTake 8000
        (mkPayload m (strOrElse (some ns) (MeetingVectorStore.mk n).«namespace»)).document) with
    | error e =>
      rw [addMeeting_embed_error _ _ _ _ _ _ hemb]
      unfold getMeeting
      rw [get_sadd, get_set_ne _ _ hdk]
    | ok emb =>
      rw [addMeeting_embed_ok _ _ _ _ _ _ hemb]
      unfold getMeeting
      rw [get_set_ne _ _ (Ne.symm (embKey_ne_dataKey _ _ _ _)),
        get_sadd, get_set_ne _ _ hdk]

/-- Witness for C10 at a concrete mismatched namespace. -/
theorem C10_add_meeting_namespace_witness :
    getMeeting ⟨"ordinary"⟩ fxOrdPM.meeting_id
        (addMeeting ⟨"ordinary"⟩ fxPorts.embedModel fxOrdPM (some "sensitive")
          RedisState.empty).2
      = some (mkPayload fxOrdPM "sensitive")
    ∧ (mkPayload fxOrdPM "sensitive").metadata.«namespace» = "sensitive"
    ∧ getMeeting ⟨"sensitive"⟩ fxOrdPM.meeting_id
        (addMeeting ⟨"ordinary"⟩ fxPorts.embedModel fxOrdPM (some "sensitive")
          RedisState.empty).2
      = getMeeting ⟨"sensitive"⟩ fxOrdPM.meeting_id RedisState.empty :=
  ⟨(C10_add_meeting_namespace fxPorts.embedModel "ordinary" "sensitive" fxOrdPM
      RedisState.empty (by decide)).1,
   (C10_add_meeting_namespace fxPorts.embedModel "ordinary" "sensitive" fxOrdPM
      RedisState.empty (by decide)).2.2.2.1,
   (C10_add_meeting_namespace fxPorts.embedModel "ordinary" "sensitive" fxOrdPM
      RedisState.empty (by decide)).2.2.2.2.2 (by decide)⟩


end MeetingIntel
